import Mathlib

/-
Verification of the text-to-calendar-link core of the chatgpt-google-extension
repository (date normalisation, tolerant JSON extraction, link building).

The TypeScript source is shallowly embedded:
  - JavaScript Date values are modelled as epoch seconds (Int) together with a
    fixed timezone offset in minutes (local wall clock = UTC + offset).  The
    calendar arithmetic (MakeDay / YearFromTime of the ECMAScript spec) is
    modelled by exact proleptic-Gregorian day-number conversions.
  - Number.prototype.toString and String.prototype.padStart are modelled
    digit-faithfully (a year below 1000 really renders with fewer digits).
  - The host date parser is modelled on the two shapes the pipeline's prompt
    contract produces: YYYY-MM-DD (parsed as UTC midnight, as JavaScript does
    for date-only ISO forms) and YYYY-MM-DDTHH:mm:ss (parsed as local time).
    Millisecond fields, explicit offsets and non-ISO inputs are outside the
    model; no claim depends on them.
  - JSON.parse is modelled by an executable parser covering null, booleans,
    strings, arrays and objects (the event JSON this system exchanges uses
    only strings and nulls; numeric literals are outside the model).
-/

/-! ### JavaScript number rendering (Number.prototype.toString, padStart) -/

/-- Little-endian decimal digits of a natural number, fuel-indexed so that the
definition reduces in the kernel.  Valid whenever the fuel is at least n. -/
def natDigitsRev : Nat → Nat → List Nat
  | 0, _ => []
  | fuel + 1, n => if n = 0 then [] else n % 10 :: natDigitsRev fuel (n / 10)

/-- The decimal digit character for d < 10. -/
def digitChar (d : Nat) : Char :=
  match d with
  | 0 => '0' | 1 => '1' | 2 => '2' | 3 => '3' | 4 => '4'
  | 5 => '5' | 6 => '6' | 7 => '7' | 8 => '8' | _ => '9'

/-- Decimal rendering of a natural number, as JavaScript renders it. -/
def natToString (n : Nat) : String :=
  if n = 0 then "0" else String.mk (((natDigitsRev n n).reverse).map digitChar)

/-- JavaScript Number.prototype.toString for integers (sign then digits). -/
def jsIntToString (n : Int) : String :=
  if n < 0 then "-" ++ natToString n.natAbs else natToString n.toNat

/-- value.toString().padStart(2, '0') as used for the two-digit date fields. -/
def pad2 (n : Int) : String :=
  let s := jsIntToString n
  if s.length = 1 then "0" ++ s else s

/-! ### Proleptic-Gregorian calendar arithmetic (ECMAScript MakeDay et al.) -/

/-- A civil calendar date (month 1..12 in normal results). -/
structure YMD where
  y : Int
  m : Int
  d : Int
deriving Repr, DecidableEq

/-- A civil date and time of day. -/
structure Civil where
  year : Int
  month : Int
  day : Int
  hour : Int
  minute : Int
  second : Int
deriving Repr, DecidableEq

/-- Leap year in the proleptic Gregorian calendar. -/
def isLeap (y : Int) : Bool := y % 4 = 0 && (y % 100 ≠ 0 || y % 400 = 0)

/-- Number of days in a month (month given 1..12). -/
def daysInMonth (y m : Int) : Int :=
  if m = 2 then (if isLeap y then 29 else 28)
  else if m = 4 ∨ m = 6 ∨ m = 9 ∨ m = 11 then 30
  else 31

/-- First day-of-era-year of month slot mp (0 = March ... 11 = February):
0, 31, 61, 92, 122, 153, 184, 214, 245, 275, 306, 337 in closed form. -/
def monthStartDoy (mp : Int) : Int := (153 * mp + 2) / 5

/-- Days since 1970-01-01 of a civil date with month in 1..12; linear in the
day argument, so day overflow rolls into later months exactly as the
ECMAScript MakeDay operation does. -/
def daysFromCivil (y m d : Int) : Int :=
  let yAdj := if m ≤ 2 then y - 1 else y
  let era := yAdj / 400
  let yoe := yAdj - era * 400
  let mp := if m ≤ 2 then m + 9 else m - 3
  let doy := monthStartDoy mp + (d - 1)
  era * 146097 + yoe * 365 + yoe / 4 - yoe / 100 + doy - 719468

/-- ECMAScript MakeDay: month index is 0-based and arbitrary (overflow is
normalised into the year), day is arbitrary (linear). -/
def makeDay (y monthIndex d : Int) : Int :=
  daysFromCivil (y + monthIndex / 12) (monthIndex % 12 + 1) d

/-- The year of era (0..399) a day of era (0..146096) falls in: the
estimate doe / 365 overshoots by at most one and is corrected against the
number of days before that year of era. -/
def yoeOfDoe (doe : Int) : Int :=
  let g := doe / 365
  if 365 * g + g / 4 - g / 100 + g / 400 ≤ doe then g else g - 1

/-- The month slot (0 = March ... 11 = February) a day of era-year (0..365)
falls in, in closed form. -/
def mpOfDoy (doy : Int) : Int := (5 * doy + 2) / 153

/-- Civil date of a day number (days since 1970-01-01). -/
def civilFromDays (z : Int) : YMD :=
  let z' := z + 719468
  let era := z' / 146097
  let doe := z' - era * 146097
  let yoe := yoeOfDoe doe
  let doy := doe - (365 * yoe + yoe / 4 - yoe / 100)
  let mp := mpOfDoy doy
  let d := doy - monthStartDoy mp + 1
  let m := if mp < 10 then mp + 3 else mp - 9
  { y := yoe + era * 400 + (if m ≤ 2 then 1 else 0), m := m, d := d }

/-- Civil date and time of an epoch-seconds value. -/
def civilFromSeconds (t : Int) : Civil :=
  let days := t / 86400
  let sod := t % 86400
  let ymd := civilFromDays days
  { year := ymd.y, month := ymd.m, day := ymd.d
    hour := sod / 3600, minute := sod % 3600 / 60, second := sod % 60 }

/-- Whether era-year yoe (0..399) ends with a leap day (its February is the
February of calendar year yoe+1 within the era). -/
def isLeapEra (yoe : Int) : Bool :=
  (yoe + 1) % 4 = 0 && ((yoe + 1) % 100 ≠ 0 || (yoe + 1) % 400 = 0)

/-- Length of month slot mp in era-year yoe. -/
def eraMonthLen (yoe mp : Int) : Int :=
  if mp = 11 then (if isLeapEra yoe then 29 else 28)
  else monthStartDoy (mp + 1) - monthStartDoy mp

/-! ### JavaScript string helpers -/

/-- String.prototype.substring with clamping (all call sites use a ≤ b). -/
def jsSubstring (s : String) (a b : Nat) : String :=
  String.mk ((s.data.drop a).take (b - a))

/-- Decimal digit test. -/
def isDigitChar (c : Char) : Bool := 48 ≤ c.toNat && c.toNat ≤ 57

/-- Numeric value of a list of decimal digit characters (most significant
first), as accumulated left to right. -/
def digitsVal (cs : List Char) : Nat :=
  cs.foldl (fun a c => 10 * a + (c.toNat - 48)) 0

/-- JavaScript parseInt with radix 10 behaviour on the strings this code
feeds it: optional leading whitespace and sign, then the longest prefix of
decimal digits; no digits means NaN, modelled as none.  (The automatic 0x
radix detection of parseInt is outside the model.) -/
def parseIntCore (l : List Char) : Option Nat :=
  let ds := l.takeWhile isDigitChar
  if ds.isEmpty then none else some (digitsVal ds)

def jsParseInt (s : String) : Option Int :=
  match s.data.dropWhile (fun c => c = ' ' || c = '\t' || c = '\n' || c = '\r') with
  | [] => none
  | c :: rest =>
    if c = '-' then (parseIntCore rest).map (fun n => -(n : Int))
    else if c = '+' then (parseIntCore rest).map (fun n => (n : Int))
    else (parseIntCore (c :: rest)).map (fun n => (n : Int))

/-! ### The host date parser (new Date(string)) on the pipeline's formats -/

/-- The regular expression test of the source: whether the string matches
the anchored pattern of four digits, dash, two digits, dash, two digits. -/
def matchesAllDayRegex (s : String) : Bool :=
  match s.data with
  | [a, b, c, d, h1, e, f, h2, g, h] =>
    isDigitChar a && isDigitChar b && isDigitChar c && isDigitChar d &&
    h1 = '-' && isDigitChar e && isDigitChar f && h2 = '-' &&
    isDigitChar g && isDigitChar h
  | _ => false

/-- Reads the year, month and day out of a string of the all-day shape. -/
def readDateOnly (s : String) : Option (Int × Int × Int) :=
  match s.data with
  | [a, b, c, d, h1, e, f, h2, g, h] =>
    if isDigitChar a && isDigitChar b && isDigitChar c && isDigitChar d &&
       h1 = '-' && isDigitChar e && isDigitChar f && h2 = '-' &&
       isDigitChar g && isDigitChar h then
      some ((digitsVal [a, b, c, d] : Int), (digitsVal [e, f] : Int),
        (digitsVal [g, h] : Int))
    else none
  | _ => none

/-- Reads the fields of a string of the timed shape YYYY-MM-DDTHH:mm:ss. -/
def readDateTime (s : String) : Option (Int × Int × Int × Int × Int × Int) :=
  match s.data with
  | [a, b, c, d, h1, e, f, h2, g, h, t0, p, q, c1, r, u, c2, v, w] =>
    if isDigitChar a && isDigitChar b && isDigitChar c && isDigitChar d &&
       h1 = '-' && isDigitChar e && isDigitChar f && h2 = '-' &&
       isDigitChar g && isDigitChar h && t0 = 'T' &&
       isDigitChar p && isDigitChar q && c1 = ':' &&
       isDigitChar r && isDigitChar u && c2 = ':' &&
       isDigitChar v && isDigitChar w then
      some ((digitsVal [a, b, c, d] : Int), (digitsVal [e, f] : Int),
        (digitsVal [g, h] : Int), (digitsVal [p, q] : Int),
        (digitsVal [r, u] : Int), (digitsVal [v, w] : Int))
    else none
  | _ => none

/-- new Date(string) on the two shapes of the pipeline's prompt contract,
returning epoch seconds.  A date-only ISO string is interpreted as UTC
midnight; a date-time string without suffix is interpreted as local time
using the fixed offset tz (minutes east of UTC).  Out-of-range components
give an invalid date, modelled as none. -/
def jsParseDate (tz : Int) (s : String) : Option Int :=
  match readDateOnly s with
  | some (y, m, d) =>
    if 1 ≤ m ∧ m ≤ 12 ∧ 1 ≤ d ∧ d ≤ daysInMonth y m then
      some (86400 * daysFromCivil y m d)
    else none
  | none =>
    match readDateTime s with
    | some (y, m, d, hh, mi, ss) =>
      if 1 ≤ m ∧ m ≤ 12 ∧ 1 ≤ d ∧ d ≤ daysInMonth y m ∧
         (hh ≤ 23 ∨ (hh = 24 ∧ mi = 0 ∧ ss = 0)) ∧ mi ≤ 59 ∧ ss ≤ 59 then
      some (86400 * daysFromCivil y m d + 3600 * hh + 60 * mi + ss - 60 * tz)
      else none
    | none => none

/-- The ambient environment of a run: the fixed timezone offset in minutes
(local wall clock = UTC + offset) and the current time in epoch seconds. -/
structure JsEnv where
  tzOffsetMin : Int
  nowEpochSec : Int
deriving Repr, DecidableEq

/-- Local civil fields of an epoch instant (the getFullYear family). -/
def localCivil (tz epoch : Int) : Civil := civilFromSeconds (epoch + 60 * tz)

/-- new Date().getFullYear() - the local year of the current instant. -/
def envCurrentYear (env : JsEnv) : Int :=
  (localCivil env.tzOffsetMin env.nowEpochSec).year

/-- Date.prototype.setFullYear: keep the local month, day and time of day
and replace the year (a local Feb 29 rolls into Mar 1 in a non-leap year,
through the linearity of the day argument of daysFromCivil). -/
def jsSetFullYear (tz epoch newYear : Int) : Int :=
  let c := localCivil tz epoch
  86400 * daysFromCivil newYear c.month c.day
    + 3600 * c.hour + 60 * c.minute + c.second - 60 * tz

/-! ### JavaScript values (the untyped records flowing through the pipeline) -/

/-- The JavaScript values this pipeline passes around: undefined, null,
booleans, strings, arrays and plain objects.  Numbers do not occur in the
event JSON of the prompt contract and are outside the model. -/
inductive JsValue where
  | vundefined : JsValue
  | vnull : JsValue
  | vbool : Bool → JsValue
  | vstr : String → JsValue
  | varr : List JsValue → JsValue
  | vobj : List (String × JsValue) → JsValue

/-- JavaScript truthiness of the modelled values. -/
def jsTruthy : JsValue → Bool
  | .vundefined => false
  | .vnull => false
  | .vbool b => b
  | .vstr s => !(s = "")
  | .varr _ => true
  | .vobj _ => true

mutual
/-- JavaScript String(value) coercion: objects render as the Object tag,
arrays join their elements with commas (null and undefined elements join
as empty text). -/
def jsToString : JsValue → String
  | .vundefined => "undefined"
  | .vnull => "null"
  | .vbool b => cond b "true" "false"
  | .vstr s => s
  | .vobj _ => "[object Object]"
  | .varr l => jsArrJoin l

/-- Array.prototype.toString: elements joined with commas. -/
def jsArrJoin : List JsValue → String
  | [] => ""
  | [v] => jsArrElem v
  | v :: rest => jsArrElem v ++ "," ++ jsArrJoin rest

/-- One element in an array join (null and undefined become empty text). -/
def jsArrElem : JsValue → String
  | .vundefined => ""
  | .vnull => ""
  | .vbool b => cond b "true" "false"
  | .vstr s => s
  | .vobj _ => "[object Object]"
  | .varr l => jsArrJoin l
end

/-- Property access on a parsed JSON value (absent property is undefined). -/
def jsGetField (v : JsValue) (k : String) : JsValue :=
  match v with
  | .vobj fields =>
    match fields.find? (fun p => p.1 = k) with
    | some p => p.2
    | none => .vundefined
  | _ => .vundefined

/-- typeof v = 'object' (true for null, arrays and objects). -/
def jsTypeofObject : JsValue → Bool
  | .vnull => true
  | .varr _ => true
  | .vobj _ => true
  | _ => false

/-- Object.keys(v).length on the values reaching the emptiness check
(object properties, or array indices). -/
def jsKeyCount : JsValue → Nat
  | .vobj fields => fields.length
  | .varr l => l.length
  | _ => 0

/-! ### formatDateTimeForGoogle (src/utils.ts 21-67, background/index.ts 284-351) -/

/-- The final rendering step shared by every variant: an all-day input
renders the local calendar fields as year, padded month, padded day; any
other input renders the UTC fields as year, month, day, literal T, hour,
minute, second, literal Z. -/
def renderFormatted (tz : Int) (original : String) (epoch : Int) : String :=
  if matchesAllDayRegex original then
    let c := localCivil tz epoch
    jsIntToString c.year ++ pad2 c.month ++ pad2 c.day
  else
    let c := civilFromSeconds epoch
    jsIntToString c.year ++ pad2 c.month ++ pad2 c.day ++ "T" ++
      pad2 c.hour ++ pad2 c.minute ++ pad2 c.second ++ "Z"

/-- formatDateTimeForGoogle of src/utils.ts lines 21-67 (the identical copy
in src/background/index.ts lines 284-351 has the same semantics): falsy
input gives null; unparseable input gives null; when adjustPastYears is set
and the parsed local year is strictly below the current local year, the
year is replaced by the current year before formatting. -/
def formatDateTimeForGoogle (env : JsEnv) (dateTimeString : JsValue)
    (adjustPastYears : Bool) : Option String :=
  if !(jsTruthy dateTimeString) then none
  else
    let dtString := jsToString dateTimeString
    match jsParseDate env.tzOffsetMin dtString with
    | none => none
    | some epoch0 =>
      let currentYear := envCurrentYear env
      let inputYear := (localCivil env.tzOffsetMin epoch0).year
      let epoch :=
        if adjustPastYears ∧ inputYear < currentYear then
          jsSetFullYear env.tzOffsetMin epoch0 currentYear
        else epoch0
      some (renderFormatted env.tzOffsetMin dtString epoch)

/-- The variant of formatDateTimeForGoogle in src/unnamed/part_010 lines
749-766: identical except that the year is adjusted only when the parsed
year is below currentYear - 1 (a one-year-stale value is tolerated). -/
def formatDateTimeForGoogleAlt (env : JsEnv) (dateTimeString : JsValue)
    (adjustPastYears : Bool) : Option String :=
  if !(jsTruthy dateTimeString) then none
  else
    let dtString := jsToString dateTimeString
    match jsParseDate env.tzOffsetMin dtString with
    | none => none
    | some epoch0 =>
      let currentYear := envCurrentYear env
      let inputYear := (localCivil env.tzOffsetMin epoch0).year
      let epoch :=
        if adjustPastYears ∧ inputYear < currentYear - 1 then
          jsSetFullYear env.tzOffsetMin epoch0 currentYear
        else epoch0
      some (renderFormatted env.tzOffsetMin dtString epoch)

/-! ### calculateNextDay (src/utils.ts 72-87) -/

/-- calculateNextDay: reads three fixed substrings with parseInt, builds a
UTC date, adds one day and renders the UTC fields.  When any parseInt gives
NaN the invalid date renders every field as NaN (nothing in the body throws
for a string argument, so the catch fallback that would return the input is
unreachable). -/
def calculateNextDay (yyyymmdd : String) : String :=
  let year := jsParseInt (jsSubstring yyyymmdd 0 4)
  let month := jsParseInt (jsSubstring yyyymmdd 4 6)
  let day := jsParseInt (jsSubstring yyyymmdd 6 8)
  match year, month, day with
  | some y, some mo, some d =>
    let days := makeDay y (mo - 1) d + 1
    let c := civilFromDays days
    jsIntToString c.y ++ pad2 c.m ++ pad2 c.d
  | _, _, _ => "NaN" ++ "NaN" ++ "NaN"

/-- The calendar successor of a valid civil date, written from the claim's
words: the following calendar day, with month and year rollover. -/
def nextCivil (y m d : Int) : YMD :=
  if d < daysInMonth y m then { y := y, m := m, d := d + 1 }
  else if m < 12 then { y := y, m := m + 1, d := 1 }
  else { y := y + 1, m := 1, d := 1 }

/-! ### JSON.parse model -/

/-- JSON insignificant whitespace. -/
def isJsonWs (c : Char) : Bool := c = ' ' || c = '\t' || c = '\n' || c = '\r'

/-- Drop leading JSON whitespace. -/
def skipWs (cs : List Char) : List Char := cs.dropWhile isJsonWs

/-- Whether a character list is entirely JSON whitespace. -/
def isWsOnly (cs : List Char) : Bool := cs.all isJsonWs

/-- Parses the remainder of a JSON string literal after the opening quote:
characters up to the closing quote, with the escape forms this model
supports; raw control characters are rejected as JSON.parse does. -/
def parseStringRest : List Char → Option (String × List Char)
  | [] => none
  | '"' :: rest => some ("", rest)
  | '\\' :: rest =>
    match rest with
    | [] => none
    | e :: rest' =>
      let dec : Option Char :=
        if e = '"' then some '"'
        else if e = '\\' then some '\\'
        else if e = '/' then some '/'
        else if e = 'n' then some '\n'
        else if e = 't' then some '\t'
        else if e = 'r' then some '\r'
        else none
      match dec with
      | none => none
      | some c =>
        match parseStringRest rest' with
        | some (s, r) => some (String.mk (c :: s.data), r)
        | none => none
  | c :: rest =>
    if c.toNat < 32 then none
    else
      match parseStringRest rest with
      | some (s, r) => some (String.mk (c :: s.data), r)
      | none => none

/-- JSON.parse keeps the last of duplicate keys while keeping the original
property position. -/
def insertField (fields : List (String × JsValue)) (k : String) (v : JsValue) :
    List (String × JsValue) :=
  if fields.any (fun p => p.1 = k) then
    fields.map (fun p => if p.1 = k then (k, v) else p)
  else fields ++ [(k, v)]

mutual
/-- Parses one JSON value (fuel-indexed so the definition reduces in the
kernel; the extractor calls it with fuel larger than the input length,
which every parseable input needs at most). -/
def parseVal : Nat → List Char → Option (JsValue × List Char)
  | 0, _ => none
  | fuel + 1, cs =>
    match skipWs cs with
    | '{' :: r =>
      match skipWs r with
      | '}' :: r' => some (.vobj [], r')
      | r' => parseMembers fuel r' []
    | '[' :: r =>
      match skipWs r with
      | ']' :: r' => some (.varr [], r')
      | r' => parseElems fuel r' []
    | '"' :: r =>
      match parseStringRest r with
      | some (s, r') => some (.vstr s, r')
      | none => none
    | 'n' :: 'u' :: 'l' :: 'l' :: r => some (.vnull, r)
    | 't' :: 'r' :: 'u' :: 'e' :: r => some (.vbool true, r)
    | 'f' :: 'a' :: 'l' :: 's' :: 'e' :: r => some (.vbool false, r)
    | _ => none

/-- Parses the members of an object after at least one member is known to
follow (key string, colon, value, then comma or closing brace). -/
def parseMembers : Nat → List Char → List (String × JsValue) →
    Option (JsValue × List Char)
  | 0, _, _ => none
  | fuel + 1, cs, acc =>
    match skipWs cs with
    | '"' :: r =>
      match parseStringRest r with
      | none => none
      | some (k, r1) =>
        match skipWs r1 with
        | ':' :: r2 =>
          match parseVal fuel r2 with
          | none => none
          | some (v, r3) =>
            let acc' := insertField acc k v
            match skipWs r3 with
            | ',' :: r4 => parseMembers fuel r4 acc'
            | '}' :: r4 => some (.vobj acc', r4)
            | _ => none
        | _ => none
    | _ => none

/-- Parses array elements after at least one element is known to follow. -/
def parseElems : Nat → List Char → List JsValue →
    Option (JsValue × List Char)
  | 0, _, _ => none
  | fuel + 1, cs, acc =>
    match parseVal fuel cs with
    | none => none
    | some (v, r) =>
      match skipWs r with
      | ',' :: r' => parseElems fuel r' (acc ++ [v])
      | ']' :: r' => some (.varr (acc ++ [v]), r')
      | _ => none
end

/-- JSON.parse: the whole text must be one value surrounded by nothing but
whitespace; failure is a thrown SyntaxError in JavaScript, modelled as the
error case of Except. -/
def jsonParseE (cs : List Char) : Except String JsValue :=
  match parseVal (cs.length + 1) cs with
  | some (v, rest) =>
    if isWsOnly rest then .ok v
    else .error "Unexpected non-whitespace character after JSON"
  | none => .error "Unexpected token in JSON"

/-! ### extractAndParseJSONFromString (src/background/index.ts 384-423) -/

/-- Index of the first occurrence of a character (String.prototype.indexOf). -/
def indexOfChar (cs : List Char) (c : Char) : Option Nat :=
  match cs with
  | [] => none
  | x :: rest =>
    if x = c then some 0
    else
      match indexOfChar rest c with
      | some i => some (i + 1)
      | none => none

/-- Index of the last occurrence of a character (lastIndexOf). -/
def lastIndexOfChar (cs : List Char) (c : Char) : Option Nat :=
  match cs with
  | [] => none
  | x :: rest =>
    match lastIndexOfChar rest c with
    | some i => some (i + 1)
    | none => if x = c then some 0 else none

/-- The first repair pass: replace every single quote by a double quote. -/
def fixQuoteChar (c : Char) : Char := if c = '\'' then '"' else c

/-- Matches the regex tail of the trailing-comma pattern: any whitespace
followed by a closing brace or bracket, returning it and the remainder. -/
def matchWsBracket : List Char → Option (List Char × List Char)
  | [] => none
  | c :: rest =>
    if c = '}' ∨ c = ']' then some ([c], rest)
    else if isJsonWs c then
      match matchWsBracket rest with
      | some (m, r) => some (c :: m, r)
      | none => none
    else none

/-- The second repair pass, fuel-indexed so that the definition reduces in
the kernel (each step consumes at least one character, so fuel equal to the
length is always enough and the fuel-exhausted branch is unreachable). -/
def fixTrailingCommasF : Nat → List Char → List Char
  | 0, cs => cs
  | _ + 1, [] => []
  | fuel + 1, c :: rest =>
    if c = ',' then
      match matchWsBracket rest with
      | some (m, r) => m ++ fixTrailingCommasF fuel r
      | none => c :: fixTrailingCommasF fuel rest
    else c :: fixTrailingCommasF fuel rest

/-- The second repair pass: the global regex replace that deletes a comma
standing (up to whitespace) directly before a closing brace or bracket,
keeping the whitespace and the bracket. -/
def fixTrailingCommas (cs : List Char) : List Char :=
  fixTrailingCommasF cs.length cs

/-- The try-block of extractAndParseJSONFromString (src/background/index.ts
lines 390-417): slice from the first opening brace to the last closing
brace (absence is an early null return, not an exception), repair single
quotes and trailing commas, and parse; a parse failure is the JSON.parse
exception, propagated here as the error case. -/
def extractBody (rawString : String) : Except String (Option JsValue) :=
  let cs := rawString.data
  match indexOfChar cs '{', lastIndexOfChar cs '}' with
  | some startIndex, some endIndex =>
    if endIndex < startIndex then .ok none
    else
      let jsonString := (cs.drop startIndex).take (endIndex + 1 - startIndex)
      let fixed := fixTrailingCommas (jsonString.map fixQuoteChar)
      (jsonParseE fixed).map some
  | _, _ => .ok none

/-- extractAndParseJSONFromString of src/background/index.ts lines 384-423:
a falsy or non-string input returns null, then the try-block runs and its
catch turns any thrown parse error into null. -/
def extractAndParseJSONFromString (rawString : String) : Option JsValue :=
  if rawString = "" then none
  else
    match extractBody rawString with
    | .ok r => r
    | .error _ => none

/-! ### Date-range composition and link building -/

/-- Truthiness of a formatted date slot (null, or a string tested for
emptiness as JavaScript if-conditions do). -/
def optTruthy : Option String → Bool
  | none => false
  | some s => !(s = "")

/-- The dates-parameter composition of createGoogleCalendarLink_Testable
(src/utils.ts lines 120-142), taking the two already formatted values: both
all-day advances the end by one day (exclusive end), both timed joins them
verbatim, a mixed pair joins start and end verbatim (best-effort branch),
and a missing end gives a one-day range for an all-day start or the bare
start for a timed one. -/
def computeDateParam (formattedStartDate formattedEndDate : Option String) :
    Option String :=
  if optTruthy formattedStartDate then
    let fs := formattedStartDate.getD ""
    let startIsAllDay := fs.length = 8
    let endIsAllDay :=
      optTruthy formattedEndDate ∧ (formattedEndDate.getD "").length = 8
    if optTruthy formattedEndDate then
      let fe := formattedEndDate.getD ""
      if startIsAllDay ∧ endIsAllDay then
        some (fs ++ "/" ++ calculateNextDay fe)
      else if ¬startIsAllDay ∧ ¬endIsAllDay then
        some (fs ++ "/" ++ fe)
      else
        if optTruthy formattedEndDate then some (fs ++ "/" ++ fe) else some fs
    else
      if startIsAllDay then some (fs ++ "/" ++ calculateNextDay fs)
      else some fs
  else none

/-- The dates-parameter composition inlined in the background extractDate
handler (src/background/index.ts lines 128-143).  It differs from the
Testable builder in the mixed case: an all-day start with a timed end
discards the end and uses start with its own next day, while a timed start
with an all-day end joins start and end verbatim. -/
def computeDateParamBg (formattedStartDate formattedEndDate : Option String) :
    Option String :=
  if optTruthy formattedStartDate then
    let fs := formattedStartDate.getD ""
    let startIsAllDay := fs.length = 8
    if optTruthy formattedEndDate then
      let fe := formattedEndDate.getD ""
      let endIsAllDay := fe.length = 8
      if startIsAllDay ∧ endIsAllDay then
        some (fs ++ "/" ++ calculateNextDay fe)
      else if ¬startIsAllDay ∧ ¬endIsAllDay then
        some (fs ++ "/" ++ fe)
      else
        if startIsAllDay then some (fs ++ "/" ++ calculateNextDay fs)
        else some (fs ++ "/" ++ fe)
    else
      if startIsAllDay then some (fs ++ "/" ++ calculateNextDay fs)
      else some fs
  else none

/-- The UTF-8 bytes of one character, as byte values. -/
def utf8Bytes (c : Char) : List Nat :=
  let n := c.toNat
  if n < 128 then [n]
  else if n < 2048 then [192 + n / 64, 128 + n % 64]
  else if n < 65536 then [224 + n / 4096, 128 + n / 64 % 64, 128 + n % 64]
  else [240 + n / 262144, 128 + n / 4096 % 64, 128 + n / 64 % 64, 128 + n % 64]

/-- Percent-encoding of one byte value, uppercase hex. -/
def percentByte (n : Nat) : List Char :=
  let hexDigit : Nat → Char := fun d =>
    if d < 10 then Char.ofNat (48 + d) else Char.ofNat (65 + (d - 10))
  ['%', hexDigit (n / 16), hexDigit (n % 16)]

/-- application/x-www-form-urlencoded serialisation of one text, as
URLSearchParams.toString produces: space becomes plus, ASCII letters,
digits, asterisk, minus, period and underscore stay, every other byte of
the UTF-8 encoding is percent-encoded. -/
def formEncode (s : String) : String :=
  String.mk ((s.data.map utf8Bytes).flatten.flatMap (fun n =>
    if n = 32 then ['+']
    else if (48 ≤ n ∧ n ≤ 57) ∨ (65 ≤ n ∧ n ≤ 90) ∨ (97 ≤ n ∧ n ≤ 122) ∨
        n = 42 ∨ n = 45 ∨ n = 46 ∨ n = 95 then
      [Char.ofNat n]
    else percentByte n))

/-- Serialisation of the assembled query parameters on the fixed base URL. -/
def urlToString (params : List (String × String)) : String :=
  "https://www.google.com/calendar/event?" ++
    String.intercalate "&" (params.map (fun p => formEncode p.1 ++ "=" ++ formEncode p.2))

/-- The query parameters assembled by createGoogleCalendarLink_Testable
(src/utils.ts lines 104-160) for an object input: action and text first,
then the computed dates value (whose absence fails the whole call), then
location only when truthy, then details built from description and the
original text. -/
def calendarParams (env : JsEnv) (jsonObject : JsValue) (info : String) :
    Option (List (String × String)) :=
  let formattedStartDate :=
    formatDateTimeForGoogle env (jsGetField jsonObject "startDate") true
  let formattedEndDate :=
    formatDateTimeForGoogle env (jsGetField jsonObject "endDate") true
  match computeDateParam formattedStartDate formattedEndDate with
  | none => none
  | some dateParamValue =>
    if dateParamValue = "" then none
    else
      let title := jsGetField jsonObject "title"
      let textParam := if jsTruthy title then jsToString title else "Event from Text"
      let location := jsGetField jsonObject "location"
      let description := jsGetField jsonObject "description"
      let detailsText := if jsTruthy description then jsToString description else ""
      let detailsText :=
        if info = "" then detailsText
        else detailsText ++ (if detailsText = "" then "" else "\n\n") ++
          "Original Text:\n" ++ info
      some ([("action", "TEMPLATE"), ("text", textParam),
        ("dates", dateParamValue)] ++
        (if jsTruthy location then [("location", jsToString location)] else []) ++
        (if detailsText = "" then [] else [("details", detailsText)]))

/-- createGoogleCalendarLink_Testable of src/utils.ts lines 104-160: null
or non-object input fails, then the parameters are assembled and the URL
serialised; a missing dates value is the only other failure. -/
def createGoogleCalendarLink_Testable (env : JsEnv) (jsonObject : JsValue)
    (info : String) : Option String :=
  if !(jsTruthy jsonObject) || !(jsTypeofObject jsonObject) then none
  else (calendarParams env jsonObject info).map urlToString

/-! ### The background done-event pipeline (src/background/index.ts 101-167) -/

/-- Outcome of processing a terminal done event in the background handler:
either a processing error with its user-facing message, or a calendar URL
opened in a new window. -/
inductive ExtractOutcome where
  | failure : String → ExtractOutcome
  | opened : String → ExtractOutcome
deriving Repr, DecidableEq

/-- The done-event processing of the background extractDate handler
(src/background/index.ts lines 101-167): parse the accumulated output,
treat null, non-objects and the empty object alike as one failure, require
a formatted start date, compose the dates value with the background
variant of the range logic, and build the URL (details gain the original
text only when it differs from the description after trimming). -/
def processDoneEvent (env : JsEnv) (resultAccumulator : String)
    (info : String) : ExtractOutcome :=
  let jsonObject := extractAndParseJSONFromString resultAccumulator
  match jsonObject with
  | none => .failure "Could not understand the response from AI. Please try again or rephrase."
  | some obj =>
    if !(jsTruthy obj) || !(jsTypeofObject obj) || jsKeyCount obj = 0 then
      .failure "Could not understand the response from AI. Please try again or rephrase."
    else
      let formattedStartDate :=
        formatDateTimeForGoogle env (jsGetField obj "startDate") true
      let formattedEndDate :=
        formatDateTimeForGoogle env (jsGetField obj "endDate") true
      if !(optTruthy formattedStartDate) then
        .failure "Failed to extract a valid start date from the text."
      else
        match computeDateParamBg formattedStartDate formattedEndDate with
        | none => .failure "Failed to format dates for Google Calendar."
        | some dateParamValue =>
          if dateParamValue = "" then
            .failure "Failed to format dates for Google Calendar."
          else
            let title := jsGetField obj "title"
            let textParam := if jsTruthy title then jsToString title else "Event from Text"
            let location := jsGetField obj "location"
            let description := jsGetField obj "description"
            let descText := if jsTruthy description then jsToString description else ""
            let detailsText := descText
            let detailsText :=
              if info ≠ "" ∧ info.trim ≠ descText.trim then
                detailsText ++ (if detailsText = "" then "" else "\n\n---\n") ++
                  "Original Text:\n" ++ info
              else detailsText
            .opened (urlToString
              ([("action", "TEMPLATE"), ("text", textParam),
                ("dates", dateParamValue)] ++
                (if jsTruthy location then [("location", jsToString location)] else []) ++
                (if detailsText = "" then [] else [("details", detailsText)])))

/-- The eight-digit rendering of a civil date, exactly as calculateNextDay
renders its result (year unpadded, month and day padded to two digits). -/
def renderYMD8 (y m d : Int) : String :=
  jsIntToString y ++ pad2 m ++ pad2 d

/-- A concrete run environment for witnesses: UTC timezone, current time
2025-06-15T15:06:40Z (epoch second 1750000000, current year 2025). -/
def envJun2025 : JsEnv := { tzOffsetMin := 0, nowEpochSec := 1750000000 }

/-! ### Sanity checks of the model on concrete values -/

example : daysFromCivil 1970 1 1 = 0 := by decide

example : daysFromCivil 2024 12 31 = 20088 := by decide

example : civilFromDays 0 = { y := 1970, m := 1, d := 1 } := by decide

example : civilFromDays 20089 = { y := 2025, m := 1, d := 1 } := by decide

example : civilFromDays (daysFromCivil 2024 2 29) = { y := 2024, m := 2, d := 29 } := by decide

example : civilFromDays (daysFromCivil 2025 2 29) = { y := 2025, m := 3, d := 1 } := by decide

example : civilFromDays (daysFromCivil 2000 2 29) = { y := 2000, m := 2, d := 29 } := by decide

example : civilFromDays (daysFromCivil 2000 3 1) = { y := 2000, m := 3, d := 1 } := by decide

example : jsParseInt "2024" = some 2024 := by decide

example : jsParseInt "12ab" = some 12 := by decide

example : jsParseInt "hell" = none := by decide

example : jsParseInt "-05" = some (-5) := by decide

example : jsParseDate 0 "2024-12-25" = some (20082 * 86400) := by decide

example : jsParseDate 0 "2024-02-30" = none := by decide

example : jsParseDate (-300) "2024-12-05T15:00:00" =
    some (20062 * 86400 + 15 * 3600 + 300 * 60) := by decide

example : jsParseDate 0 "hello" = none := by decide

example : matchesAllDayRegex "2024-12-25" = true := by decide

example : matchesAllDayRegex "2024-12-25T10:00:00" = false := by decide

example : jsToString (.varr [.vstr "2024-01-01"]) = "2024-01-01" := by decide

example : jsToString (.vobj []) = "[object Object]" := by decide

example : calculateNextDay "20241231" = "20250101" := by decide

example : calculateNextDay "20240228" = "20240229" := by decide

example : calculateNextDay "hello" = "NaNNaNNaN" := by decide

example : calculateNextDay "20241301" = "20250102" := by decide

example : extractAndParseJSONFromString "{}" = some (.vobj []) := by rfl

example : extractAndParseJSONFromString "no braces here" = none := by rfl

example : extractAndParseJSONFromString "x\x7b'title': 'Meeting'\x7dy" =
    some (.vobj [("title", .vstr "Meeting")]) := by rfl

example : fixTrailingCommas ("\x7b\"a\":null,\x7d".data) = "\x7b\"a\":null\x7d".data := by
  decide

example : extractAndParseJSONFromString "\x7b\"title\":\"Meeting\",\x7d" =
    some (.vobj [("title", .vstr "Meeting")]) := by rfl

/-! ### Lemmas on the decimal rendering -/

theorem natDigitsRev_zero (f : Nat) : natDigitsRev f 0 = [] := by
  cases f <;> simp [natDigitsRev]

theorem natDigitsRev_stable (f g n : Nat) (hf : n ≤ f) (hg : n ≤ g) :
    natDigitsRev f n = natDigitsRev g n := by
  induction f generalizing g n with
  | zero =>
    have : n = 0 := by omega
    subst this
    simp [natDigitsRev_zero]
  | succ f ih =>
    rcases Nat.eq_zero_or_pos n with h0 | hpos
    · subst h0; simp [natDigitsRev_zero]
    · have hg1 : 1 ≤ g := by omega
      obtain ⟨g', rfl⟩ : ∃ g', g = g' + 1 := ⟨g - 1, by omega⟩
      simp only [natDigitsRev, if_neg (by omega : ¬n = 0)]
      have hdiv : n / 10 ≤ f := by omega
      have hdiv' : n / 10 ≤ g' := by omega
      rw [ih g' (n / 10) hdiv hdiv']

theorem natDigitsRev_lt_ten (f n d : Nat) (h : d ∈ natDigitsRev f n) : d < 10 := by
  induction f generalizing n with
  | zero => simp [natDigitsRev] at h
  | succ f ih =>
    simp only [natDigitsRev] at h
    by_cases hn : n = 0
    · rw [if_pos hn] at h
      simp at h
    · rw [if_neg hn, List.mem_cons] at h
      rcases h with h | h
      · omega
      · exact ih _ h

theorem natDigitsRev_length (f n k : Nat) (hf : n ≤ f) (h1 : 10 ^ k ≤ n)
    (h2 : n < 10 ^ (k + 1)) : (natDigitsRev f n).length = k + 1 := by
  induction f generalizing n k with
  | zero =>
    have hk : 0 < 10 ^ k := Nat.pos_pow_of_pos k (by omega)
    omega
  | succ f ih =>
    have hn : n ≠ 0 := by
      have hk : 0 < 10 ^ k := Nat.pos_pow_of_pos k (by omega)
      omega
    simp only [natDigitsRev, if_neg hn, List.length_cons]
    cases k with
    | zero =>
      have hz : n / 10 = 0 := by
        simp only [pow_zero, pow_one] at h1 h2
        omega
      rw [hz, natDigitsRev_zero]
      rfl
    | succ k =>
      have hb1 : 10 ^ (k + 1) ≤ n := h1
      have hb2 : n < 10 ^ (k + 2) := h2
      have hd1 : 10 ^ k ≤ n / 10 := by
        rw [Nat.le_div_iff_mul_le (by omega)]
        calc 10 ^ k * 10 = 10 ^ (k + 1) := by rw [Nat.pow_succ]
        _ ≤ n := hb1
      have hd2 : n / 10 < 10 ^ (k + 1) := by
        rw [Nat.div_lt_iff_lt_mul (by omega)]
        calc n < 10 ^ (k + 2) := hb2
        _ = 10 ^ (k + 1) * 10 := by rw [Nat.pow_succ]
      have hdf : n / 10 ≤ f := by omega
      rw [ih (n / 10) k hdf hd1 hd2]

theorem digitChar_toNat (d : Nat) (h : d < 10) : (digitChar d).toNat = 48 + d := by
  interval_cases d <;> rfl

theorem isDigitChar_digitChar (d : Nat) (h : d < 10) :
    isDigitChar (digitChar d) = true := by
  interval_cases d <;> rfl

theorem digitsVal_append_single (l : List Char) (c : Char) :
    digitsVal (l ++ [c]) = 10 * digitsVal l + (c.toNat - 48) := by
  simp [digitsVal, List.foldl_append]

theorem natDigitsRev_val (f n : Nat) (hf : n ≤ f) :
    digitsVal ((natDigitsRev f n).reverse.map digitChar) = n := by
  induction f generalizing n with
  | zero =>
    have : n = 0 := by omega
    subst this
    simp [natDigitsRev_zero, digitsVal]
  | succ f ih =>
    rcases Nat.eq_zero_or_pos n with h0 | hpos
    · subst h0; simp [natDigitsRev_zero, digitsVal]
    · simp only [natDigitsRev, if_neg (by omega : ¬n = 0), List.reverse_cons,
        List.map_append, List.map_cons, List.map_nil]
    
      rw [digitsVal_append_single]
      rw [ih (n / 10) (by omega)]
      rw [digitChar_toNat (n % 10) (by omega)]
      omega

theorem string_length_data (s : String) : s.length = s.data.length := rfl

theorem string_data_mk (l : List Char) : (String.mk l).data = l := rfl

theorem string_data_append (a b : String) : (a ++ b).data = a.data ++ b.data := rfl

theorem natToString_data (n : Nat) (h : n ≠ 0) :
    (natToString n).data = (natDigitsRev n n).reverse.map digitChar := by
  simp [natToString, if_neg h]

theorem natToString_length (n k : Nat) (h1 : 10 ^ k ≤ n) (h2 : n < 10 ^ (k + 1)) :
    (natToString n).length = k + 1 := by
  have hn : n ≠ 0 := by
    have hk : 0 < 10 ^ k := Nat.pos_pow_of_pos k (by omega)
    omega
  rw [string_length_data, natToString_data n hn]
  simp [natDigitsRev_length n n k (le_refl n) h1 h2]

theorem natToString_val (n : Nat) : digitsVal (natToString n).data = n := by
  by_cases h : n = 0
  · subst h; decide
  · rw [natToString_data n h]
    exact natDigitsRev_val n n (le_refl n)

theorem natToString_digits (n : Nat) (c : Char) (h : c ∈ (natToString n).data) :
    isDigitChar c = true := by
  by_cases hn : n = 0
  · subst hn
    simp only [natToString, if_pos rfl] at h
    have : c = '0' := by simpa using h
    subst this; decide
  · rw [natToString_data n hn] at h
    simp only [List.mem_map, List.mem_reverse] at h
    obtain ⟨d, hd, rfl⟩ := h
    exact isDigitChar_digitChar d (natDigitsRev_lt_ten n n d hd)

theorem natToString_ne_empty (n : Nat) : natToString n ≠ "" := by
  by_cases h : n = 0
  · subst h; decide
  · have h1 : 1 ≤ (natToString n).length := by
      rw [string_length_data, natToString_data n h]
      simp only [List.length_map, List.length_reverse]
      obtain ⟨f, rfl⟩ : ∃ f, n = f + 1 := ⟨n - 1, by omega⟩
      simp [natDigitsRev, if_neg h]
    intro he
    rw [he] at h1
    simp at h1

theorem jsIntToString_nonneg (n : Int) (h : 0 ≤ n) :
    jsIntToString n = natToString n.toNat := by
  simp [jsIntToString, not_lt.mpr h]

theorem digitsVal_zero_cons (l : List Char) : digitsVal ('0' :: l) = digitsVal l := by
  simp [digitsVal]

theorem pad2_spec (n : Int) (h0 : 0 ≤ n) (h99 : n ≤ 99) :
    (pad2 n).length = 2 ∧ digitsVal (pad2 n).data = n.toNat ∧
      ∀ c ∈ (pad2 n).data, isDigitChar c = true := by
  have hts : jsIntToString n = natToString n.toNat := jsIntToString_nonneg n h0
  by_cases h10 : n.toNat < 10
  · have hlen : (natToString n.toNat).length = 1 := by
      by_cases hz : n.toNat = 0
      · rw [hz]; decide
      · exact natToString_length n.toNat 0 (by omega) (by omega)
    have hpad : pad2 n = "0" ++ natToString n.toNat := by
      simp [pad2, hts, hlen]
    refine ⟨?_, ?_, ?_⟩
    · rw [hpad, string_length_data, string_data_append]
      simp only [List.length_append]
      rw [← string_length_data, ← string_length_data, hlen]
      rfl
    · rw [hpad, string_data_append]
      have : ("0" : String).data = ['0'] := rfl
      rw [this]
      simp only [List.cons_append, List.nil_append]
      rw [digitsVal_zero_cons]
      exact natToString_val n.toNat
    · intro c hc
      rw [hpad, string_data_append] at hc
      have h0d : ("0" : String).data = ['0'] := rfl
      rw [h0d] at hc
      simp only [List.cons_append, List.nil_append, List.mem_cons] at hc
      rcases hc with rfl | hc
      · decide
      · exact natToString_digits n.toNat c hc
  · have hlen : (natToString n.toNat).length = 2 :=
      natToString_length n.toNat 1 (by omega) (by omega)
    have hpad : pad2 n = natToString n.toNat := by
      simp only [pad2, hts, hlen]
      norm_num
    refine ⟨?_, ?_, ?_⟩
    · rw [hpad]; exact hlen
    · rw [hpad]; exact natToString_val n.toNat
    · intro c hc
      rw [hpad] at hc
      exact natToString_digits n.toNat c hc

theorem jsIntToString_year (n : Int) (h1 : 1000 ≤ n) (h2 : n ≤ 9999) :
    (jsIntToString n).length = 4 ∧ digitsVal (jsIntToString n).data = n.toNat ∧
      ∀ c ∈ (jsIntToString n).data, isDigitChar c = true := by
  have hts : jsIntToString n = natToString n.toNat := jsIntToString_nonneg n (by omega)
  refine ⟨?_, ?_, ?_⟩
  · rw [hts]
    exact natToString_length n.toNat 3 (by omega) (by omega)
  · rw [hts]; exact natToString_val n.toNat
  · intro c hc
    rw [hts] at hc
    exact natToString_digits n.toNat c hc

/-! ### Lemmas on the calendar arithmetic -/

theorem yoeOfDoe_spec (doe : Int) (h0 : 0 ≤ doe) (h1 : doe < 146097) :
    0 ≤ yoeOfDoe doe ∧ yoeOfDoe doe ≤ 399 ∧
    365 * yoeOfDoe doe + yoeOfDoe doe / 4 - yoeOfDoe doe / 100 ≤ doe ∧
    doe < 365 * (yoeOfDoe doe + 1) + (yoeOfDoe doe + 1) / 4 - (yoeOfDoe doe + 1) / 100
      + (yoeOfDoe doe + 1) / 400 := by
  simp only [yoeOfDoe]
  split_ifs <;> (try simp only [sub_add_cancel]) <;> omega

theorem yoeOfDoe_unique (doe a : Int) (h0 : 0 ≤ doe) (h1 : doe < 146097)
    (ha0 : 0 ≤ a) (ha1 : a ≤ 399)
    (hl : 365 * a + a / 4 - a / 100 ≤ doe)
    (hu : doe < 365 * (a + 1) + (a + 1) / 4 - (a + 1) / 100 + (a + 1) / 400) :
    yoeOfDoe doe = a := by
  obtain ⟨s0, s1, s2, s3⟩ := yoeOfDoe_spec doe h0 h1
  rcases lt_trichotomy (yoeOfDoe doe) a with hba | hba | hba
  · exfalso
    rcases eq_or_lt_of_le (by omega : yoeOfDoe doe + 1 ≤ a) with heq | hlt
    · rw [← heq] at hl
      omega
    · have e1 : (yoeOfDoe doe + 1) / 4 ≤ a / 4 :=
        Int.ediv_le_ediv (by norm_num) (by omega)
      omega
  · exact hba
  · exfalso
    rcases eq_or_lt_of_le (by omega : a + 1 ≤ yoeOfDoe doe) with heq | hlt
    · rw [heq] at hu
      omega
    · have e1 : (a + 1) / 4 ≤ yoeOfDoe doe / 4 :=
        Int.ediv_le_ediv (by norm_num) (by omega)
      omega

theorem mpOfDoy_spec (doy : Int) (h0 : 0 ≤ doy) (h1 : doy ≤ 365) :
    0 ≤ mpOfDoy doy ∧ mpOfDoy doy ≤ 11 ∧
    monthStartDoy (mpOfDoy doy) ≤ doy ∧ doy - monthStartDoy (mpOfDoy doy) ≤ 30 := by
  simp only [mpOfDoy, monthStartDoy]
  omega

theorem civilFromDays_range (z : Int) :
    1 ≤ (civilFromDays z).m ∧ (civilFromDays z).m ≤ 12 ∧
    1 ≤ (civilFromDays z).d ∧ (civilFromDays z).d ≤ 31 := by
  simp only [civilFromDays]
  set z' := z + 719468 with hz'
  set era := z' / 146097 with hera
  set doe := z' - era * 146097 with hdoe
  have hdoeb0 : 0 ≤ doe := by omega
  have hdoeb1 : doe < 146097 := by omega
  obtain ⟨hyoe0, hyoe1, hyoe2, hyoe3⟩ := yoeOfDoe_spec doe hdoeb0 hdoeb1
  set yoe := yoeOfDoe doe with hyoe
  set doy := doe - (365 * yoe + yoe / 4 - yoe / 100) with hdoy
  have hdoyb0 : 0 ≤ doy := by omega
  have hdoyb1 : doy ≤ 365 := by omega
  obtain ⟨hmp0, hmp1, hmp2, hmp3⟩ := mpOfDoy_spec doy hdoyb0 hdoyb1
  set mp := mpOfDoy doy with hmp
  refine ⟨?_, ?_, ?_, ?_⟩ <;> dsimp only [] <;> first
    | (split_ifs <;> omega)
    | omega

theorem civilFromDays_decomp (era0 doe0 : Int) (h0 : 0 ≤ doe0) (h1 : doe0 < 146097) :
    civilFromDays (era0 * 146097 + doe0 - 719468) =
      { y := yoeOfDoe doe0 + era0 * 400 +
          (if (if mpOfDoy (doe0 - (365 * yoeOfDoe doe0 + yoeOfDoe doe0 / 4 - yoeOfDoe doe0 / 100)) < 10
              then mpOfDoy (doe0 - (365 * yoeOfDoe doe0 + yoeOfDoe doe0 / 4 - yoeOfDoe doe0 / 100)) + 3
              else mpOfDoy (doe0 - (365 * yoeOfDoe doe0 + yoeOfDoe doe0 / 4 - yoeOfDoe doe0 / 100)) - 9) ≤ 2
            then 1 else 0),
        m := if mpOfDoy (doe0 - (365 * yoeOfDoe doe0 + yoeOfDoe doe0 / 4 - yoeOfDoe doe0 / 100)) < 10
            then mpOfDoy (doe0 - (365 * yoeOfDoe doe0 + yoeOfDoe doe0 / 4 - yoeOfDoe doe0 / 100)) + 3
            else mpOfDoy (doe0 - (365 * yoeOfDoe doe0 + yoeOfDoe doe0 / 4 - yoeOfDoe doe0 / 100)) - 9,
        d := doe0 - (365 * yoeOfDoe doe0 + yoeOfDoe doe0 / 4 - yoeOfDoe doe0 / 100) -
          monthStartDoy (mpOfDoy (doe0 - (365 * yoeOfDoe doe0 + yoeOfDoe doe0 / 4 - yoeOfDoe doe0 / 100))) + 1 } := by
  have hdiv : (era0 * 146097 + doe0 - 719468 + 719468) / 146097 = era0 := by omega
  have hsub : era0 * 146097 + doe0 - 719468 + 719468 - era0 * 146097 = doe0 := by ring
  simp only [civilFromDays, hdiv, hsub]

theorem doy_lt_yearLen (yoe mp dd : Int) (hy0 : 0 ≤ yoe) (hy1 : yoe ≤ 399)
    (hmp0 : 0 ≤ mp) (hmp1 : mp ≤ 11) (hdd0 : 0 ≤ dd)
    (hdd1 : dd < eraMonthLen yoe mp) :
    monthStartDoy mp + dd <
      365 * (yoe + 1) + (yoe + 1) / 4 - (yoe + 1) / 100 + (yoe + 1) / 400
        - (365 * yoe + yoe / 4 - yoe / 100) := by
  simp only [eraMonthLen, monthStartDoy] at hdd1 ⊢
  by_cases hf : mp = 11
  · rw [if_pos hf] at hdd1
    subst hf
    by_cases hL : isLeapEra yoe
    · rw [if_pos hL] at hdd1
      simp only [isLeapEra, Bool.and_eq_true, Bool.or_eq_true, decide_eq_true_eq,
        bne_iff_ne, ne_eq] at hL
      omega
    · rw [if_neg hL] at hdd1
      omega
  · rw [if_neg hf] at hdd1
    omega

theorem mpOfDoy_recover (yoe mp dd : Int) (hmp0 : 0 ≤ mp) (hmp1 : mp ≤ 11)
    (hdd0 : 0 ≤ dd) (hdd1 : dd < eraMonthLen yoe mp) :
    mpOfDoy (monthStartDoy mp + dd) = mp := by
  simp only [eraMonthLen, monthStartDoy, mpOfDoy] at hdd1 ⊢
  by_cases hf : mp = 11
  · rw [if_pos hf] at hdd1
    subst hf
    have hdd2 : dd ≤ 28 := by split_ifs at hdd1 <;> omega
    omega
  · rw [if_neg hf] at hdd1
    omega

theorem roundtrip_core (era0 yoe0 mp0 dd : Int)
    (hy0 : 0 ≤ yoe0) (hy1 : yoe0 ≤ 399) (hmp0 : 0 ≤ mp0) (hmp1 : mp0 ≤ 11)
    (hdd0 : 0 ≤ dd) (hdd1 : dd < eraMonthLen yoe0 mp0) :
    civilFromDays (era0 * 146097 +
        (365 * yoe0 + yoe0 / 4 - yoe0 / 100 + monthStartDoy mp0 + dd) - 719468) =
      { y := yoe0 + era0 * 400 +
          (if (if mp0 < 10 then mp0 + 3 else mp0 - 9) ≤ 2 then 1 else 0),
        m := if mp0 < 10 then mp0 + 3 else mp0 - 9,
        d := dd + 1 } := by
  have hms0 : 0 ≤ monthStartDoy mp0 := by simp only [monthStartDoy]; omega
  have hyl := doy_lt_yearLen yoe0 mp0 dd hy0 hy1 hmp0 hmp1 hdd0 hdd1
  have h0 : 0 ≤ 365 * yoe0 + yoe0 / 4 - yoe0 / 100 + monthStartDoy mp0 + dd := by omega
  have h1 : 365 * yoe0 + yoe0 / 4 - yoe0 / 100 + monthStartDoy mp0 + dd < 146097 := by
    have hcap : 365 * (yoe0 + 1) + (yoe0 + 1) / 4 - (yoe0 + 1) / 100 + (yoe0 + 1) / 400
        ≤ 146097 := by omega
    omega
  rw [civilFromDays_decomp era0 _ h0 h1]
  have hyoe : yoeOfDoe (365 * yoe0 + yoe0 / 4 - yoe0 / 100 + monthStartDoy mp0 + dd) = yoe0 :=
    yoeOfDoe_unique _ yoe0 h0 h1 hy0 hy1 (by omega) (by omega)
  rw [hyoe]
  have hdoy : 365 * yoe0 + yoe0 / 4 - yoe0 / 100 + monthStartDoy mp0 + dd -
      (365 * yoe0 + yoe0 / 4 - yoe0 / 100) = monthStartDoy mp0 + dd := by omega
  rw [hdoy]
  rw [mpOfDoy_recover yoe0 mp0 dd hmp0 hmp1 hdd0 hdd1]
  simp only [YMD.mk.injEq]
  refine ⟨trivial, trivial, by omega⟩

theorem civilFromDays_daysFromCivil (y m d : Int) (hm1 : 1 ≤ m) (hm2 : m ≤ 12)
    (hd1 : 1 ≤ d) (hd2 : d ≤ daysInMonth y m) :
    civilFromDays (daysFromCivil y m d) = { y := y, m := m, d := d } := by
  by_cases hm : m ≤ 2
  · -- January and February belong to the previous era-year
    have hdim : daysInMonth y m = eraMonthLen ((y - 1) - (y - 1) / 400 * 400) (m + 9) := by
      by_cases h2 : m = 2
      · subst h2
        have hiff : (isLeap y = true) ↔
            (isLeapEra ((y - 1) - (y - 1) / 400 * 400) = true) := by
          simp only [isLeap, isLeapEra, Bool.and_eq_true, Bool.or_eq_true,
            decide_eq_true_eq, bne_iff_ne, ne_eq]
          constructor <;> intro hh <;> omega
        have hbe : isLeap y = isLeapEra ((y - 1) - (y - 1) / 400 * 400) := by
          cases hx : isLeap y <;> cases hz : isLeapEra ((y - 1) - (y - 1) / 400 * 400)
          · rfl
          · rw [hx, hz] at hiff; simp at hiff
          · rw [hx, hz] at hiff; simp at hiff
          · rfl
        simp only [daysInMonth, eraMonthLen, hbe]
        norm_num
      · have h1 : m = 1 := by omega
        subst h1
        simp only [daysInMonth, eraMonthLen, monthStartDoy]
        norm_num
    have harg : daysFromCivil y m d = ((y - 1) / 400) * 146097 +
        (365 * ((y - 1) - (y - 1) / 400 * 400) + ((y - 1) - (y - 1) / 400 * 400) / 4
          - ((y - 1) - (y - 1) / 400 * 400) / 100 + monthStartDoy (m + 9) + (d - 1))
        - 719468 := by
      simp only [daysFromCivil, if_pos hm]
      ring
    rw [harg, roundtrip_core ((y - 1) / 400) ((y - 1) - (y - 1) / 400 * 400) (m + 9) (d - 1)
      (by omega) (by omega) (by omega) (by omega) (by omega) (by omega)]
    simp only [YMD.mk.injEq]
    refine ⟨?_, ?_, by omega⟩
    · split_ifs <;> omega
    · split_ifs <;> omega
  · have hdim : daysInMonth y m = eraMonthLen (y - y / 400 * 400) (m - 3) := by
      simp only [daysInMonth, eraMonthLen, monthStartDoy,
        if_neg (by omega : ¬(m - 3 = 11)), if_neg (by omega : ¬(m = 2))]
      have h3 : 3 ≤ m := by omega
      interval_cases m <;> decide
    have harg : daysFromCivil y m d = (y / 400) * 146097 +
        (365 * (y - y / 400 * 400) + (y - y / 400 * 400) / 4
          - (y - y / 400 * 400) / 100 + monthStartDoy (m - 3) + (d - 1))
        - 719468 := by
      simp only [daysFromCivil, if_neg hm]
      ring
    rw [harg, roundtrip_core (y / 400) (y - y / 400 * 400) (m - 3) (d - 1)
      (by omega) (by omega) (by omega) (by omega) (by omega) (by omega)]
    simp only [YMD.mk.injEq]
    refine ⟨?_, ?_, by omega⟩
    · split_ifs <;> omega
    · split_ifs <;> omega

theorem daysFromCivil_nextCivil (y m d : Int) (hm1 : 1 ≤ m) (hm2 : m ≤ 12)
    (hd1 : 1 ≤ d) (hd2 : d ≤ daysInMonth y m) :
    daysFromCivil (nextCivil y m d).y (nextCivil y m d).m (nextCivil y m d).d =
      daysFromCivil y m d + 1 := by
  simp only [nextCivil]
  by_cases hlt : d < daysInMonth y m
  · rw [if_pos hlt]
    by_cases hm : m ≤ 2
    · simp only [daysFromCivil, if_pos hm]
      ring
    · simp only [daysFromCivil, if_neg hm]
      ring
  · rw [if_neg hlt]
    have hdd : d = daysInMonth y m := by omega
    by_cases h12 : m < 12
    · rw [if_pos h12]
      by_cases hm1' : m = 1
      · subst hm1'
        simp only [daysInMonth] at hdd
        norm_num at hdd
        subst hdd
        simp only [daysFromCivil, monthStartDoy]
        norm_num
        omega
      · by_cases hm2' : m = 2
        · subst hm2'
          simp only [daysInMonth] at hdd
          norm_num at hdd
          by_cases hL : isLeap y = true
          · rw [if_pos hL] at hdd
            subst hdd
            simp only [isLeap, Bool.and_eq_true, Bool.or_eq_true,
              decide_eq_true_eq, bne_iff_ne, ne_eq] at hL
            simp only [daysFromCivil, monthStartDoy]
            norm_num
            omega
          · rw [if_neg hL] at hdd
            subst hdd
            have hLn : ¬(y % 4 = 0 ∧ (¬y % 100 = 0 ∨ y % 400 = 0)) := by
              intro hc
              apply hL
              simp only [isLeap, Bool.and_eq_true, Bool.or_eq_true,
                decide_eq_true_eq, bne_iff_ne, ne_eq]
              exact hc
            simp only [daysFromCivil, monthStartDoy]
            norm_num
            omega
        · have h3 : 3 ≤ m := by omega
          simp only [daysInMonth, if_neg hm2'] at hdd
          subst hdd
          simp only [daysFromCivil, monthStartDoy, daysInMonth,
            if_neg (by omega : ¬m + 1 ≤ 2), if_neg (by omega : ¬m ≤ 2),
            if_neg hm2']
          interval_cases m <;> split_ifs <;> omega
    · have hm12 : m = 12 := by omega
      subst hm12
      rw [if_neg h12]
      simp only [daysInMonth] at hdd
      norm_num at hdd
      subst hdd
      simp only [daysFromCivil, monthStartDoy]
      norm_num
      omega

/-! ### Reading back the digit strings this system renders -/

theorem takeWhile_all (l : List Char) (h : ∀ c ∈ l, isDigitChar c = true) :
    l.takeWhile isDigitChar = l := by
  induction l with
  | nil => rfl
  | cons c rest ih =>
    have hc : isDigitChar c = true := h c (by simp)
    simp only [List.takeWhile_cons, hc, if_pos]
    rw [ih (fun x hx => h x (by simp [hx]))]

theorem digit_not_special (c : Char) (h : isDigitChar c = true) :
    ¬(c = ' ' || c = '\t' || c = '\n' || c = '\r') = true ∧
      c ≠ '-' ∧ c ≠ '+' := by
  simp only [isDigitChar, Bool.and_eq_true, decide_eq_true_eq] at h
  refine ⟨?_, ?_, ?_⟩
  · simp only [Bool.or_eq_true, decide_eq_true_eq]
    rintro (((rfl | rfl) | rfl) | rfl) <;> exact absurd h (by decide)
  · rintro rfl; exact absurd h (by decide)
  · rintro rfl; exact absurd h (by decide)

theorem jsParseInt_digits (l : List Char) (hne : l ≠ [])
    (h : ∀ c ∈ l, isDigitChar c = true) :
    jsParseInt (String.mk l) = some ((digitsVal l : Nat) : Int) := by
  obtain ⟨c, rest, rfl⟩ : ∃ c rest, l = c :: rest := by
    cases l with
    | nil => exact absurd rfl hne
    | cons c rest => exact ⟨c, rest, rfl⟩
  have hc : isDigitChar c = true := h c (by simp)
  obtain ⟨hws, hminus, hplus⟩ := digit_not_special c hc
  have hpred : (decide (c = ' ') || decide (c = '\t') || decide (c = '\n') ||
      decide (c = '\x0d')) = false := Bool.eq_false_iff.mpr hws
  simp only [jsParseInt, string_data_mk, List.dropWhile_cons, hpred,
    Bool.false_eq_true, if_false]
  rw [if_neg hminus, if_neg hplus]
  simp only [parseIntCore, takeWhile_all (c :: rest) h]
  simp [List.isEmpty]

theorem data_renderYMD8 (y m d : Int) :
    (renderYMD8 y m d).data =
      (jsIntToString y).data ++ (pad2 m).data ++ (pad2 d).data := by
  simp [renderYMD8, string_data_append]

theorem jsSubstring_start (s : String) (a b : List Char) (n : Nat)
    (hs : s.data = a ++ b) (hn : a.length = n) :
    jsSubstring s 0 n = String.mk a := by
  simp only [jsSubstring, hs, Nat.sub_zero, List.drop_zero]
  rw [← hn, List.take_left]

theorem jsSubstring_mid (s : String) (a b c : List Char) (n k : Nat)
    (hs : s.data = a ++ b ++ c) (hn : a.length = n) (hk : b.length = k - n)
    (hnk : n ≤ k) :
    jsSubstring s n k = String.mk b := by
  simp only [jsSubstring, hs]
  rw [List.append_assoc, ← hk, ← hn, List.drop_left, List.take_left]

theorem makeDay_of_month (y m d : Int) (h1 : 1 ≤ m) (h2 : m ≤ 12) :
    makeDay y (m - 1) d = daysFromCivil y m d := by
  simp only [makeDay]
  rw [show y + (m - 1) / 12 = y by omega, show (m - 1) % 12 + 1 = m by omega]

theorem daysInMonth_ge (y m : Int) : 28 ≤ daysInMonth y m := by
  simp only [daysInMonth]
  split_ifs <;> omega

theorem nextCivil_valid (y m d : Int) (hm1 : 1 ≤ m) (hm2 : m ≤ 12)
    (hd1 : 1 ≤ d) (hd2 : d ≤ daysInMonth y m) :
    1 ≤ (nextCivil y m d).m ∧ (nextCivil y m d).m ≤ 12 ∧
    1 ≤ (nextCivil y m d).d ∧
    (nextCivil y m d).d ≤ daysInMonth (nextCivil y m d).y (nextCivil y m d).m ∧
    y ≤ (nextCivil y m d).y ∧ (nextCivil y m d).y ≤ y + 1 := by
  simp only [nextCivil]
  split_ifs with h1 h2 <;> dsimp only [] <;>
    first
      | (refine ⟨by omega, by omega, by omega, ?_, by omega, by omega⟩
         first
           | omega
           | exact le_trans (by omega) (daysInMonth_ge _ _))

theorem string_mk_data (s : String) : String.mk s.data = s := rfl

theorem jsParseInt_year (y : Int) (h1 : 1000 ≤ y) (h2 : y ≤ 9999) :
    jsParseInt (jsIntToString y) = some y := by
  obtain ⟨hlen, hval, hdig⟩ := jsIntToString_year y h1 h2
  have hne : (jsIntToString y).data ≠ [] := by
    intro hc
    rw [string_length_data, hc] at hlen
    simp at hlen
  have := jsParseInt_digits (jsIntToString y).data hne hdig
  rw [string_mk_data] at this
  rw [this, hval]
  congr 1
  omega

theorem jsParseInt_pad2 (n : Int) (h1 : 0 ≤ n) (h2 : n ≤ 99) :
    jsParseInt (pad2 n) = some n := by
  obtain ⟨hlen, hval, hdig⟩ := pad2_spec n h1 h2
  have hne : (pad2 n).data ≠ [] := by
    intro hc
    rw [string_length_data, hc] at hlen
    simp at hlen
  have := jsParseInt_digits (pad2 n).data hne hdig
  rw [string_mk_data] at this
  rw [this, hval]
  congr 1
  omega

theorem calculateNextDay_reads (y m d : Int)
    (hy1 : 1000 ≤ y) (hy2 : y ≤ 9999) (hm1 : 0 ≤ m) (hm2 : m ≤ 99)
    (hd1 : 0 ≤ d) (hd2 : d ≤ 99) :
    jsParseInt (jsSubstring (renderYMD8 y m d) 0 4) = some y ∧
    jsParseInt (jsSubstring (renderYMD8 y m d) 4 6) = some m ∧
    jsParseInt (jsSubstring (renderYMD8 y m d) 6 8) = some d := by
  obtain ⟨hylen, _, _⟩ := jsIntToString_year y hy1 hy2
  obtain ⟨hmlen, _, _⟩ := pad2_spec m hm1 hm2
  obtain ⟨hdlen, _, _⟩ := pad2_spec d hd1 hd2
  rw [string_length_data] at hylen hmlen hdlen
  have hdata := data_renderYMD8 y m d
  have hs1 : jsSubstring (renderYMD8 y m d) 0 4 = String.mk (jsIntToString y).data :=
    jsSubstring_start _ _ ((pad2 m).data ++ (pad2 d).data) 4
      (by rw [hdata, List.append_assoc]) hylen
  have hs2 : jsSubstring (renderYMD8 y m d) 4 6 = String.mk (pad2 m).data :=
    jsSubstring_mid _ (jsIntToString y).data (pad2 m).data ((pad2 d).data) 4 6
      hdata hylen (by omega) (by omega)
  have hs3 : jsSubstring (renderYMD8 y m d) 6 8 = String.mk (pad2 d).data :=
    jsSubstring_mid _ ((jsIntToString y).data ++ (pad2 m).data) (pad2 d).data [] 6 8
      (by rw [List.append_nil]; exact hdata)
      (by rw [List.length_append]; omega) (by omega) (by omega)
  rw [hs1, hs2, hs3, string_mk_data, string_mk_data, string_mk_data]
  exact ⟨jsParseInt_year y hy1 hy2, jsParseInt_pad2 m hm1 hm2, jsParseInt_pad2 d hd1 hd2⟩

theorem renderYMD8_length (y m d : Int) (hy1 : 1000 ≤ y) (hy2 : y ≤ 9999)
    (hm1 : 0 ≤ m) (hm2 : m ≤ 99) (hd1 : 0 ≤ d) (hd2 : d ≤ 99) :
    (renderYMD8 y m d).length = 8 := by
  obtain ⟨hylen, _, _⟩ := jsIntToString_year y hy1 hy2
  obtain ⟨hmlen, _, _⟩ := pad2_spec m hm1 hm2
  obtain ⟨hdlen, _, _⟩ := pad2_spec d hd1 hd2
  rw [string_length_data, data_renderYMD8]
  simp only [List.length_append]
  rw [string_length_data] at hylen hmlen hdlen
  omega

theorem calculateNextDay_wellFormed (y m d : Int)
    (hy1 : 1000 ≤ y) (hy2 : y ≤ 9998) (hm1 : 1 ≤ m) (hm2 : m ≤ 12)
    (hd1 : 1 ≤ d) (hd2 : d ≤ daysInMonth y m) :
    calculateNextDay (renderYMD8 y m d) =
      renderYMD8 (nextCivil y m d).y (nextCivil y m d).m (nextCivil y m d).d ∧
    (calculateNextDay (renderYMD8 y m d)).length = 8 := by
  have hd31 : d ≤ 31 := le_trans hd2 (by simp only [daysInMonth]; split_ifs <;> omega)
  obtain ⟨hpy, hpm, hpd⟩ := calculateNextDay_reads y m d hy1 (by omega) (by omega)
    (by omega) (by omega) (by omega)
  obtain ⟨hv1, hv2, hv3, hv4, hv5, hv6⟩ := nextCivil_valid y m d hm1 hm2 hd1 hd2
  have hmain : calculateNextDay (renderYMD8 y m d) =
      renderYMD8 (nextCivil y m d).y (nextCivil y m d).m (nextCivil y m d).d := by
    simp only [calculateNextDay, hpy, hpm, hpd]
    rw [makeDay_of_month y m d hm1 hm2, ← daysFromCivil_nextCivil y m d hm1 hm2 hd1 hd2,
      civilFromDays_daysFromCivil _ _ _ hv1 hv2 hv3 hv4]
    rfl
  refine ⟨hmain, ?_⟩
  rw [hmain]
  have hdm : daysInMonth (nextCivil y m d).y (nextCivil y m d).m ≤ 31 := by
    simp only [daysInMonth]; split_ifs <;> omega
  exact renderYMD8_length _ _ _ (by omega) (by omega) (by omega) (by omega)
    (by omega) (by omega)

/-! ### Behaviour of the formatter and of calculateNextDay on failures -/

theorem jsIntToString_ne_empty (n : Int) : jsIntToString n ≠ "" := by
  simp only [jsIntToString]
  split_ifs
  · intro h
    have hd := congrArg String.data h
    rw [string_data_append] at hd
    simp at hd
  · exact natToString_ne_empty _

theorem string_append_ne_empty_left (a b : String) (ha : a ≠ "") :
    a ++ b ≠ "" := by
  intro h
  have hd := congrArg String.data h
  rw [string_data_append] at hd
  have h1 : a.data = [] := (List.append_eq_nil.mp hd).1
  apply ha
  have h2 := congrArg String.mk h1
  rwa [string_mk_data] at h2

theorem renderFormatted_ne_empty (tz : Int) (s : String) (epoch : Int) :
    renderFormatted tz s epoch ≠ "" := by
  simp only [renderFormatted]
  split_ifs <;>
    (repeat apply string_append_ne_empty_left) <;>
    exact jsIntToString_ne_empty _

theorem formatDateTimeForGoogle_none_iff (env : JsEnv) (v : JsValue) (adj : Bool) :
    formatDateTimeForGoogle env v adj = none ↔
      (jsTruthy v = false ∨ jsParseDate env.tzOffsetMin (jsToString v) = none) := by
  simp only [formatDateTimeForGoogle]
  cases ht : jsTruthy v
  · simp [ht]
  · cases hp : jsParseDate env.tzOffsetMin (jsToString v)
    · simp [ht, hp]
    · simp [ht, hp]

theorem formatDateTimeForGoogle_some_form (env : JsEnv) (v : JsValue) (adj : Bool)
    (out : String) (h : formatDateTimeForGoogle env v adj = some out) :
    ∃ epoch, out = renderFormatted env.tzOffsetMin (jsToString v) epoch := by
  simp only [formatDateTimeForGoogle] at h
  cases ht : jsTruthy v
  · rw [ht] at h
    simp at h
  · rw [ht] at h
    simp only [Bool.not_true, Bool.false_eq_true, if_false] at h
    cases hp : jsParseDate env.tzOffsetMin (jsToString v)
    · rw [hp] at h
      simp at h
    · rw [hp] at h
      simp only [Option.some.injEq] at h
      exact ⟨_, h.symm⟩

theorem formatDateTimeForGoogle_ne_some_empty (env : JsEnv) (v : JsValue)
    (adj : Bool) : formatDateTimeForGoogle env v adj ≠ some "" := by
  intro h
  obtain ⟨epoch, heq⟩ := formatDateTimeForGoogle_some_form env v adj "" h
  exact renderFormatted_ne_empty _ _ _ heq.symm

theorem calculateNextDay_nan (s : String)
    (h : jsParseInt (jsSubstring s 0 4) = none ∨ jsParseInt (jsSubstring s 4 6) = none ∨
      jsParseInt (jsSubstring s 6 8) = none) :
    calculateNextDay s = "NaN" ++ "NaN" ++ "NaN" := by
  rcases h with h | h | h
  · simp [calculateNextDay, h]
  · cases hx : jsParseInt (jsSubstring s 0 4) <;> simp [calculateNextDay, h, hx]
  · cases hx : jsParseInt (jsSubstring s 0 4) <;>
      cases hy : jsParseInt (jsSubstring s 4 6) <;>
      simp [calculateNextDay, h, hx, hy]

/-! ### Claim C10 -/

/-- C10: with adjustPastYears false and a fixed timezone offset,
formatDateTimeForGoogle is a pure function of its input: two runs under
different current system instants return the same result, because the
ambient clock is consulted only by the disabled past-year adjustment. -/
theorem c10_formatter_pure_without_adjust (tz now1 now2 : Int) (v : JsValue) :
    formatDateTimeForGoogle { tzOffsetMin := tz, nowEpochSec := now1 } v false =
      formatDateTimeForGoogle { tzOffsetMin := tz, nowEpochSec := now2 } v false := by
  simp [formatDateTimeForGoogle]

/-! ### Claim C3 -/

/-- C3: for every date string that parses, the utils.ts formatter with
adjustPastYears true replaces the year by the current year exactly when the
parsed local year is strictly below the current year, the part_010 variant
does so exactly when it is below the current year minus one, and with
adjustPastYears false both format the parsed date unmodified. -/
theorem c3_past_year_adjustment (env : JsEnv) (s : String) (epoch0 : Int)
    (hp : jsParseDate env.tzOffsetMin s = some epoch0) :
    formatDateTimeForGoogle env (.vstr s) false =
        some (renderFormatted env.tzOffsetMin s epoch0) ∧
    formatDateTimeForGoogleAlt env (.vstr s) false =
        some (renderFormatted env.tzOffsetMin s epoch0) ∧
    ((localCivil env.tzOffsetMin epoch0).year < envCurrentYear env →
      formatDateTimeForGoogle env (.vstr s) true =
        some (renderFormatted env.tzOffsetMin s
          (jsSetFullYear env.tzOffsetMin epoch0 (envCurrentYear env)))) ∧
    (envCurrentYear env ≤ (localCivil env.tzOffsetMin epoch0).year →
      formatDateTimeForGoogle env (.vstr s) true =
        some (renderFormatted env.tzOffsetMin s epoch0)) ∧
    ((localCivil env.tzOffsetMin epoch0).year < envCurrentYear env - 1 →
      formatDateTimeForGoogleAlt env (.vstr s) true =
        some (renderFormatted env.tzOffsetMin s
          (jsSetFullYear env.tzOffsetMin epoch0 (envCurrentYear env)))) ∧
    (envCurrentYear env - 1 ≤ (localCivil env.tzOffsetMin epoch0).year →
      formatDateTimeForGoogleAlt env (.vstr s) true =
        some (renderFormatted env.tzOffsetMin s epoch0)) := by
  have hs : s ≠ "" := by
    rintro rfl
    simp [jsParseDate, readDateOnly, readDateTime] at hp
  have ht : jsTruthy (JsValue.vstr s) = true := by simp [jsTruthy, hs]
  have hts : jsToString (JsValue.vstr s) = s := rfl
  refine ⟨?_, ?_, ?_, ?_, ?_, ?_⟩
  · simp [formatDateTimeForGoogle, ht, hts, hp]
  · simp [formatDateTimeForGoogleAlt, ht, hts, hp]
  · intro hcond
    simp only [formatDateTimeForGoogle, ht, Bool.not_true, Bool.false_eq_true,
      if_false, hts, hp, true_and]
    rw [if_pos hcond]
  · intro hcond
    simp only [formatDateTimeForGoogle, ht, Bool.not_true, Bool.false_eq_true,
      if_false, hts, hp, true_and]
    rw [if_neg (by omega)]
  · intro hcond
    simp only [formatDateTimeForGoogleAlt, ht, Bool.not_true, Bool.false_eq_true,
      if_false, hts, hp, true_and]
    rw [if_pos hcond]
  · intro hcond
    simp only [formatDateTimeForGoogleAlt, ht, Bool.not_true, Bool.false_eq_true,
      if_false, hts, hp, true_and]
    rw [if_neg (by omega)]

/-- Witness for C3 at the concrete environment and input 2020-03-30. -/
theorem c3_past_year_adjustment_witness :
    jsParseDate envJun2025.tzOffsetMin "2020-03-30" = some (86400 * 18351) ∧
    formatDateTimeForGoogle envJun2025 (.vstr "2020-03-30") true =
      some (renderFormatted envJun2025.tzOffsetMin "2020-03-30"
        (jsSetFullYear envJun2025.tzOffsetMin (86400 * 18351) (envCurrentYear envJun2025))) :=
  ⟨by decide,
   (c3_past_year_adjustment envJun2025 "2020-03-30" (86400 * 18351)
      (by decide)).2.2.1 (by decide)⟩

/-! ### Claim C9 -/

/-- C9: the core functions return tagged values and never propagate an
exception for malformed input: a JSON.parse error inside the extractor's
try-block is caught and becomes null; the formatter returns null exactly
on falsy or unparseable input (never for any other reason); and
calculateNextDay turns any input whose three fixed substrings fail parseInt
into the NaN-rendered string rather than throwing. -/
theorem c9_core_never_throws :
    (∀ raw msg, extractBody raw = .error msg →
      extractAndParseJSONFromString raw = none) ∧
    (∀ env v adj, formatDateTimeForGoogle env v adj = none ↔
      (jsTruthy v = false ∨ jsParseDate env.tzOffsetMin (jsToString v) = none)) ∧
    (∀ s, jsParseInt (jsSubstring s 0 4) = none ∨
        jsParseInt (jsSubstring s 4 6) = none ∨
        jsParseInt (jsSubstring s 6 8) = none →
      calculateNextDay s = "NaN" ++ "NaN" ++ "NaN") := by
  refine ⟨?_, fun env v adj => formatDateTimeForGoogle_none_iff env v adj,
    fun s h => calculateNextDay_nan s h⟩
  intro raw msg h
  simp only [extractAndParseJSONFromString]
  split_ifs with hr
  · rfl
  · rw [h]

/-- Witness for C9: a parse failure, an unparseable date and a malformed
eight-digit input all yield tagged results. -/
theorem c9_core_never_throws_witness :
    extractAndParseJSONFromString "\x7b'a'\x7d" = none ∧
    formatDateTimeForGoogle envJun2025 (.vstr "bogus") true = none ∧
    calculateNextDay "hello" = "NaN" ++ "NaN" ++ "NaN" :=
  ⟨c9_core_never_throws.1 "\x7b'a'\x7d" "Unexpected token in JSON" (by rfl),
   (c9_core_never_throws.2.1 envJun2025 (.vstr "bogus") true).mpr (Or.inr (by rfl)),
   c9_core_never_throws.2.2 "hello" (Or.inl (by decide))⟩

/-! ### Claim C7 -/

/-- C7 counterexample: a malformed input does not come back unchanged; the
NaN fields of the invalid date are rendered instead, so the claim that
malformed input returns the original string is false on the code. -/
theorem c7_nextday_counterexample :
    calculateNextDay "hello" = "NaNNaNNaN" ∧ calculateNextDay "hello" ≠ "hello" :=
  ⟨by decide, by decide⟩

/-- C7 amended: an input whose three fixed substrings do not all parse
yields the NaN-rendered string (never an exception, but not the original
input); a well-formed eight-digit date of a four-digit year below 9999
yields the following calendar day, with month and year rollover, in the
same eight-digit format. -/
theorem c7_calculateNextDay_amended :
    (∀ s, jsParseInt (jsSubstring s 0 4) = none ∨
        jsParseInt (jsSubstring s 4 6) = none ∨
        jsParseInt (jsSubstring s 6 8) = none →
      calculateNextDay s = "NaN" ++ "NaN" ++ "NaN") ∧
    (∀ y m d, 1000 ≤ y → y ≤ 9998 → 1 ≤ m → m ≤ 12 → 1 ≤ d →
      d ≤ daysInMonth y m →
      calculateNextDay (renderYMD8 y m d) =
        renderYMD8 (nextCivil y m d).y (nextCivil y m d).m (nextCivil y m d).d ∧
      (calculateNextDay (renderYMD8 y m d)).length = 8) :=
  ⟨fun s h => calculateNextDay_nan s h,
   fun y m d h1 h2 h3 h4 h5 h6 => calculateNextDay_wellFormed y m d h1 h2 h3 h4 h5 h6⟩

/-- Witness for C7 at the year-rollover example 2024-12-31. -/
theorem c7_calculateNextDay_amended_witness :
    calculateNextDay "202412xx" = "NaN" ++ "NaN" ++ "NaN" ∧
    calculateNextDay (renderYMD8 2024 12 31) =
      renderYMD8 (nextCivil 2024 12 31).y (nextCivil 2024 12 31).m
        (nextCivil 2024 12 31).d ∧
    (calculateNextDay (renderYMD8 2024 12 31)).length = 8 ∧
    calculateNextDay "20241231" = "20250101" :=
  ⟨c7_calculateNextDay_amended.1 "202412xx" (Or.inr (Or.inr (by decide))),
   (c7_calculateNextDay_amended.2 2024 12 31 (by decide) (by decide) (by decide)
      (by decide) (by decide) (by decide)).1,
   (c7_calculateNextDay_amended.2 2024 12 31 (by decide) (by decide) (by decide)
      (by decide) (by decide) (by decide)).2,
   by decide⟩

/-! ### Claim C2 -/

/-- C2 counterexample: in the background handler's range composition, an
all-day start with a timed end does not use the formatted end value; it
discards the end and uses the start with its own next day. -/
theorem c2_mixed_range_counterexample :
    computeDateParamBg (some "20241225") (some "20241225T150000Z") =
      some "20241225/20241226" ∧
    computeDateParamBg (some "20241225") (some "20241225T150000Z") ≠
      some ("20241225" ++ "/" ++ "20241225T150000Z") :=
  ⟨by decide, by decide⟩

/-- C2 amended: the Testable builder uses the formatted end value directly
as the range end in both mixed cases, with no exclusive-end adjustment and
without discarding the end; the background handler does so only for the
timed-start all-day-end mix, while for the all-day-start timed-end mix it
discards the end and uses the start with its own next day. -/
theorem c2_mixed_range_amended (fs fe : String) (hfs : fs ≠ "") (hfe : fe ≠ "") :
    (fs.length = 8 → fe.length ≠ 8 →
      computeDateParam (some fs) (some fe) = some (fs ++ "/" ++ fe) ∧
      computeDateParamBg (some fs) (some fe) =
        some (fs ++ "/" ++ calculateNextDay fs)) ∧
    (fs.length ≠ 8 → fe.length = 8 →
      computeDateParam (some fs) (some fe) = some (fs ++ "/" ++ fe) ∧
      computeDateParamBg (some fs) (some fe) = some (fs ++ "/" ++ fe)) := by
  have hts : optTruthy (some fs) = true := by simp [optTruthy, hfs]
  have hte : optTruthy (some fe) = true := by simp [optTruthy, hfe]
  constructor
  · intro h8 hn8
    constructor
    · simp [computeDateParam, hts, hte, h8, hn8]
    · simp [computeDateParamBg, hts, hte, h8, hn8]
  · intro hn8 h8
    constructor
    · simp [computeDateParam, hts, hte, h8, hn8]
    · simp [computeDateParamBg, hts, hte, h8, hn8]

/-- Witness for C2 on concrete formatted values of both mixed kinds. -/
theorem c2_mixed_range_amended_witness :
    computeDateParam (some "20241225") (some "20241225T150000Z") =
      some ("20241225" ++ "/" ++ "20241225T150000Z") ∧
    computeDateParamBg (some "20241225") (some "20241225T150000Z") =
      some ("20241225" ++ "/" ++ calculateNextDay "20241225") ∧
    computeDateParam (some "20241225T150000Z") (some "20241226") =
      some ("20241225T150000Z" ++ "/" ++ "20241226") ∧
    computeDateParamBg (some "20241225T150000Z") (some "20241226") =
      some ("20241225T150000Z" ++ "/" ++ "20241226") :=
  ⟨((c2_mixed_range_amended "20241225" "20241225T150000Z" (by decide) (by decide)).1
      (by decide) (by decide)).1,
   ((c2_mixed_range_amended "20241225" "20241225T150000Z" (by decide) (by decide)).1
      (by decide) (by decide)).2,
   ((c2_mixed_range_amended "20241225T150000Z" "20241226" (by decide) (by decide)).2
      (by decide) (by decide)).1,
   ((c2_mixed_range_amended "20241225T150000Z" "20241226" (by decide) (by decide)).2
      (by decide) (by decide)).2⟩

/-! ### Claim C4 -/

/-- C4 counterexample: the extractor returns the empty object as a success,
yet the background pipeline reports it with exactly the same failure
outcome as input containing no JSON at all, so the empty object is not
surfaced as a distinct no-event outcome. -/
theorem c4_empty_object_counterexample :
    extractAndParseJSONFromString "{}" = some (.vobj []) ∧
    processDoneEvent envJun2025 "{}" "txt" =
      .failure "Could not understand the response from AI. Please try again or rephrase." ∧
    processDoneEvent envJun2025 "{}" "txt" =
      processDoneEvent envJun2025 "no json at all" "txt" :=
  ⟨by rfl, by rfl, by rfl⟩

/-- C4 amended: extractJSON of the empty object succeeds with the empty
object (not a failure); the downstream background pipeline however folds
the empty object and every extraction failure into one and the same
user-facing failure outcome instead of a distinct no-event outcome. -/
theorem c4_empty_object_amended :
    extractAndParseJSONFromString "{}" = some (.vobj []) ∧
    (∀ env info raw, extractAndParseJSONFromString raw = none →
      processDoneEvent env raw info =
        .failure "Could not understand the response from AI. Please try again or rephrase.") ∧
    (∀ env info raw, extractAndParseJSONFromString raw = some (.vobj []) →
      processDoneEvent env raw info =
        .failure "Could not understand the response from AI. Please try again or rephrase.") := by
  refine ⟨by rfl, ?_, ?_⟩
  · intro env info raw h
    simp only [processDoneEvent, h]
  · intro env info raw h
    simp only [processDoneEvent, h]
    rfl

/-- Witness for C4 on the empty object and a no-JSON input. -/
theorem c4_empty_object_amended_witness :
    processDoneEvent envJun2025 "zzz" "info" =
      .failure "Could not understand the response from AI. Please try again or rephrase." ∧
    processDoneEvent envJun2025 " \x7b\x7d " "info" =
      .failure "Could not understand the response from AI. Please try again or rephrase." :=
  ⟨c4_empty_object_amended.2.1 envJun2025 "info" "zzz" (by rfl),
   c4_empty_object_amended.2.2 envJun2025 "info" " \x7b\x7d " (by rfl)⟩

/-! ### Claim C8 -/

/-- C8 counterexample: an event whose location is a structured object does
not have the location parameter omitted; the builder embeds the stringified
object, both in the assembled parameters and in the serialised URL. -/
theorem c8_location_object_counterexample :
    calendarParams envJun2025
        (.vobj [("title", .vstr "T"), ("startDate", .vstr "2025-12-25"),
          ("endDate", .vnull), ("location", .vobj []), ("description", .vnull)]) "" =
      some [("action", "TEMPLATE"), ("text", "T"), ("dates", "20251225/20251226"),
        ("location", "[object Object]")] ∧
    createGoogleCalendarLink_Testable envJun2025
        (.vobj [("title", .vstr "T"), ("startDate", .vstr "2025-12-25"),
          ("endDate", .vnull), ("location", .vobj []), ("description", .vnull)]) "" =
      some "https://www.google.com/calendar/event?action=TEMPLATE&text=T&dates=20251225%2F20251226&location=%5Bobject+Object%5D" :=
  ⟨by rfl, by rfl⟩

/-- C8 amended: the location parameter is included exactly when the
location field is truthy - a structured object is truthy and is embedded
in its stringified "[object Object]" form - and omitted exactly when the
location is null, undefined, false or the empty string. -/
theorem c8_location_param_amended (env : JsEnv) (fields : List (String × JsValue))
    (info : String) (pl : List (String × String))
    (h : calendarParams env (.vobj fields) info = some pl) :
    pl.filter (fun p => p.1 = "location") =
      (if jsTruthy (jsGetField (.vobj fields) "location") = true then
        [("location", jsToString (jsGetField (.vobj fields) "location"))]
      else []) := by
  simp only [calendarParams] at h
  cases hdp : computeDateParam
      (formatDateTimeForGoogle env (jsGetField (.vobj fields) "startDate") true)
      (formatDateTimeForGoogle env (jsGetField (.vobj fields) "endDate") true)
  · rw [hdp] at h
    simp at h
  · rename_i dv
    rw [hdp] at h
    dsimp only [] at h
    by_cases hdv : dv = ""
    · rw [if_pos hdv] at h
      simp at h
    · rw [if_neg hdv] at h
      simp only [Option.some.injEq] at h
      subst h
      cases htl : jsTruthy (jsGetField (.vobj fields) "location") <;>
        split_ifs <;>
        simp_all [List.filter_append, List.filter]

/-- Witness for C8 at a concrete event with an object location. -/
theorem c8_location_param_amended_witness :
    (([("action", "TEMPLATE"), ("text", "T"), ("dates", "20251225/20251226"),
        ("location", "[object Object]")] : List (String × String)).filter
      (fun p => p.1 = "location")) =
      (if jsTruthy (jsGetField
          (.vobj [("title", .vstr "T"), ("startDate", .vstr "2025-12-25"),
            ("endDate", .vnull), ("location", .vobj []), ("description", .vnull)])
          "location") = true then
        [("location", jsToString (jsGetField
          (.vobj [("title", .vstr "T"), ("startDate", .vstr "2025-12-25"),
            ("endDate", .vnull), ("location", .vobj []), ("description", .vnull)])
          "location"))]
      else []) :=
  c8_location_param_amended envJun2025
    [("title", .vstr "T"), ("startDate", .vstr "2025-12-25"),
      ("endDate", .vnull), ("location", .vobj []), ("description", .vnull)]
    "" _ (by rfl)

/-! ### Behaviour of the Testable builder on missing dates -/

theorem optTruthy_format_false_iff (env : JsEnv) (v : JsValue) (adj : Bool) :
    optTruthy (formatDateTimeForGoogle env v adj) = false ↔
      formatDateTimeForGoogle env v adj = none := by
  cases hf : formatDateTimeForGoogle env v adj
  · simp [optTruthy]
  · rename_i s
    have hs : s ≠ "" := by
      intro he
      exact formatDateTimeForGoogle_ne_some_empty env v adj (he ▸ hf)
    simp [optTruthy, hs]

theorem optTruthy_getD (fs : Option String) (h : optTruthy fs = true) :
    fs.getD "" ≠ "" := by
  cases fs
  · simp [optTruthy] at h
  · simp only [optTruthy, Bool.not_eq_true'] at h
    simpa using h

theorem computeDateParam_none_iff (fs fe : Option String) :
    computeDateParam fs fe = none ↔ optTruthy fs = false := by
  simp only [computeDateParam]
  cases ht : optTruthy fs
  · simp
  · simp only [if_true]
    split_ifs <;> simp

theorem computeDateParam_isSome (fs fe : Option String)
    (h : optTruthy fs = true) : ∃ dv, computeDateParam fs fe = some dv := by
  simp only [computeDateParam, h]
  split_ifs <;> exact ⟨_, rfl⟩

theorem computeDateParam_some_ne_empty (fs fe : Option String) (dv : String)
    (h : computeDateParam fs fe = some dv) : dv ≠ "" := by
  simp only [computeDateParam] at h
  by_cases ht : optTruthy fs = true
  · rw [if_pos ht] at h
    have hfs : fs.getD "" ≠ "" := optTruthy_getD fs ht
    split_ifs at h <;>
      simp only [Option.some.injEq] at h <;>
      subst h <;>
      first
        | exact hfs
        | exact string_append_ne_empty_left _ _ (string_append_ne_empty_left _ _ hfs)
  · rw [if_neg ht] at h
    simp at h

theorem calendarParams_none_iff (env : JsEnv) (fields : List (String × JsValue))
    (info : String) :
    calendarParams env (.vobj fields) info = none ↔
      formatDateTimeForGoogle env (jsGetField (.vobj fields) "startDate") true = none := by
  cases hf : formatDateTimeForGoogle env (jsGetField (.vobj fields) "startDate") true
  · have hcd : computeDateParam none
        (formatDateTimeForGoogle env (jsGetField (.vobj fields) "endDate") true) = none := by
      simp [computeDateParam, optTruthy]
    simp [calendarParams, hf, hcd]
  · rename_i s
    have hs : s ≠ "" := by
      intro he
      exact formatDateTimeForGoogle_ne_some_empty env _ true (he ▸ hf)
    have hts : optTruthy (some s) = true := by simp [optTruthy, hs]
    obtain ⟨dv, hdv⟩ := computeDateParam_isSome (some s)
      (formatDateTimeForGoogle env (jsGetField (.vobj fields) "endDate") true) hts
    have hne := computeDateParam_some_ne_empty _ _ dv hdv
    simp [calendarParams, hf, hdv, hne]

theorem find_filter_other (fields : List (String × JsValue)) (k : String)
    (hk : ¬(k = "endDate")) :
    (fields.filter (fun p => !(p.1 = "endDate"))).find? (fun p => p.1 = k) =
      fields.find? (fun p => p.1 = k) := by
  induction fields with
  | nil => rfl
  | cons a rest ih =>
    by_cases ha : a.1 = "endDate"
    · have hek : ¬("endDate" = k) := fun hh => hk hh.symm
      simp [List.filter_cons, List.find?_cons, ha, hek, ih]
    · by_cases hak : a.1 = k
      · subst hak
        simp [List.filter_cons, List.find?_cons, ha]
      · simp [List.filter_cons, List.find?_cons, ha, hak, ih]

theorem find_filter_endDate (fields : List (String × JsValue)) :
    (fields.filter (fun p => !(p.1 = "endDate"))).find?
      (fun p => p.1 = "endDate") = none := by
  induction fields with
  | nil => rfl
  | cons a rest ih =>
    by_cases ha : a.1 = "endDate" <;> simp [List.filter_cons, List.find?_cons, ha, ih]

theorem jsGetField_filter_other (fields : List (String × JsValue)) (k : String)
    (hk : ¬(k = "endDate")) :
    jsGetField (.vobj (fields.filter (fun p => !(p.1 = "endDate")))) k =
      jsGetField (.vobj fields) k := by
  simp [jsGetField, find_filter_other fields k hk]

theorem jsGetField_filter_endDate (fields : List (String × JsValue)) :
    jsGetField (.vobj (fields.filter (fun p => !(p.1 = "endDate")))) "endDate" =
      .vundefined := by
  simp only [jsGetField, find_filter_endDate]

/-- C5: the Testable link builder on an object input returns null exactly
when the start date formats to null (a missing or unparseable start is the
single hard failure), while an end date that formats to null silently
degrades: the result is the same link the builder produces when the
endDate field is absent altogether. -/
theorem c5_start_mandatory_end_degrades (env : JsEnv)
    (fields : List (String × JsValue)) (info : String) :
    (createGoogleCalendarLink_Testable env (.vobj fields) info = none ↔
      formatDateTimeForGoogle env (jsGetField (.vobj fields) "startDate") true = none) ∧
    (formatDateTimeForGoogle env (jsGetField (.vobj fields) "endDate") true = none →
      createGoogleCalendarLink_Testable env (.vobj fields) info =
        createGoogleCalendarLink_Testable env
          (.vobj (fields.filter (fun p => !(p.1 = "endDate")))) info) := by
  constructor
  · rw [show createGoogleCalendarLink_Testable env (.vobj fields) info =
        (calendarParams env (.vobj fields) info).map urlToString from rfl]
    rw [Option.map_eq_none']
    exact calendarParams_none_iff env fields info
  · intro hend
    have h1 := jsGetField_filter_other fields "startDate" (by decide)
    have h2 := jsGetField_filter_other fields "title" (by decide)
    have h3 := jsGetField_filter_other fields "location" (by decide)
    have h4 := jsGetField_filter_other fields "description" (by decide)
    have h5 := jsGetField_filter_endDate fields
    have h6 : formatDateTimeForGoogle env JsValue.vundefined true = none := rfl
    have hparams : calendarParams env (.vobj fields) info =
        calendarParams env (.vobj (fields.filter (fun p => !(p.1 = "endDate")))) info := by
      simp only [calendarParams, h1, h2, h3, h4, h5, h6, hend]
    rw [show createGoogleCalendarLink_Testable env (.vobj fields) info =
        (calendarParams env (.vobj fields) info).map urlToString from rfl,
      show createGoogleCalendarLink_Testable env
          (.vobj (fields.filter (fun p => !(p.1 = "endDate")))) info =
        (calendarParams env
          (.vobj (fields.filter (fun p => !(p.1 = "endDate")))) info).map
          urlToString from rfl,
      hparams]

/-- Concrete instance of the C5 theorem: a garbage endDate yields the same
link as omitting endDate, and an object with no startDate yields null. -/
theorem c5_start_mandatory_end_degrades_witness :
    createGoogleCalendarLink_Testable envJun2025
        (.vobj [("title", .vstr "T"), ("startDate", .vstr "2025-12-25"),
          ("endDate", .vstr "garbage")]) "" =
      createGoogleCalendarLink_Testable envJun2025
        (.vobj [("title", .vstr "T"), ("startDate", .vstr "2025-12-25")]) "" ∧
    createGoogleCalendarLink_Testable envJun2025
      (.vobj [("title", .vstr "T")]) "" = none := by
  constructor
  · exact (c5_start_mandatory_end_degrades envJun2025
      [("title", .vstr "T"), ("startDate", .vstr "2025-12-25"),
        ("endDate", .vstr "garbage")] "").2 (by rfl)
  · exact (c5_start_mandatory_end_degrades envJun2025
      [("title", .vstr "T")] "").1.mpr (by rfl)

/-! ### Shape of the rendered output -/

theorem civilFromSeconds_md_range (t : Int) :
    1 ≤ (civilFromSeconds t).month ∧ (civilFromSeconds t).month ≤ 12 ∧
    1 ≤ (civilFromSeconds t).day ∧ (civilFromSeconds t).day ≤ 31 :=
  civilFromDays_range (t / 86400)

theorem civilFromSeconds_time_range (t : Int) :
    0 ≤ (civilFromSeconds t).hour ∧ (civilFromSeconds t).hour ≤ 23 ∧
    0 ≤ (civilFromSeconds t).minute ∧ (civilFromSeconds t).minute ≤ 59 ∧
    0 ≤ (civilFromSeconds t).second ∧ (civilFromSeconds t).second ≤ 59 := by
  simp only [civilFromSeconds]
  omega

theorem renderFormatted_allDay (tz : Int) (s : String) (epoch : Int)
    (hall : matchesAllDayRegex s = true)
    (hy1 : 1000 ≤ (localCivil tz epoch).year)
    (hy2 : (localCivil tz epoch).year ≤ 9999) :
    (renderFormatted tz s epoch).length = 8 ∧
      ∀ c ∈ (renderFormatted tz s epoch).data, isDigitChar c = true := by
  have hmd : 1 ≤ (localCivil tz epoch).month ∧ (localCivil tz epoch).month ≤ 12 ∧
      1 ≤ (localCivil tz epoch).day ∧ (localCivil tz epoch).day ≤ 31 :=
    civilFromSeconds_md_range (epoch + 60 * tz)
  obtain ⟨hm1, hm2, hd1, hd2⟩ := hmd
  obtain ⟨hylen, -, hydig⟩ := jsIntToString_year _ hy1 hy2
  obtain ⟨hmlen, -, hmdig⟩ := pad2_spec (localCivil tz epoch).month (by omega) (by omega)
  obtain ⟨hdlen, -, hddig⟩ := pad2_spec (localCivil tz epoch).day (by omega) (by omega)
  have hre : renderFormatted tz s epoch =
      jsIntToString (localCivil tz epoch).year ++ pad2 (localCivil tz epoch).month ++
        pad2 (localCivil tz epoch).day := by
    simp only [renderFormatted, hall, if_true]
  constructor
  · rw [hre, string_length_data]
    simp only [string_data_append, List.length_append]
    rw [string_length_data] at hylen hmlen hdlen
    omega
  · intro c hc
    rw [hre] at hc
    simp only [string_data_append, List.mem_append] at hc
    rcases hc with (hc | hc) | hc
    · exact hydig c hc
    · exact hmdig c hc
    · exact hddig c hc

theorem renderFormatted_timed (tz : Int) (s : String) (epoch : Int)
    (hall : matchesAllDayRegex s = false)
    (hy1 : 1000 ≤ (civilFromSeconds epoch).year)
    (hy2 : (civilFromSeconds epoch).year ≤ 9999) :
    (renderFormatted tz s epoch).length = 16 := by
  obtain ⟨hm1, hm2, hd1, hd2⟩ := civilFromSeconds_md_range epoch
  obtain ⟨hh0, hh1, hmi0, hmi1, hs0, hs1⟩ := civilFromSeconds_time_range epoch
  obtain ⟨hylen, -, -⟩ := jsIntToString_year _ hy1 hy2
  obtain ⟨hmlen, -, -⟩ := pad2_spec (civilFromSeconds epoch).month (by omega) (by omega)
  obtain ⟨hdlen, -, -⟩ := pad2_spec (civilFromSeconds epoch).day (by omega) (by omega)
  obtain ⟨hhlen, -, -⟩ := pad2_spec (civilFromSeconds epoch).hour (by omega) (by omega)
  obtain ⟨hmilen, -, -⟩ := pad2_spec (civilFromSeconds epoch).minute (by omega) (by omega)
  obtain ⟨hslen, -, -⟩ := pad2_spec (civilFromSeconds epoch).second (by omega) (by omega)
  have hre : renderFormatted tz s epoch =
      jsIntToString (civilFromSeconds epoch).year ++ pad2 (civilFromSeconds epoch).month ++
        pad2 (civilFromSeconds epoch).day ++ "T" ++ pad2 (civilFromSeconds epoch).hour ++
        pad2 (civilFromSeconds epoch).minute ++ pad2 (civilFromSeconds epoch).second ++
        "Z" := by
    simp only [renderFormatted, hall, Bool.false_eq_true, if_false]
  rw [hre, string_length_data]
  simp only [string_data_append, List.length_append]
  rw [string_length_data] at hylen hmlen hdlen hhlen hmilen hslen
  have hT : (['T'] : List Char).length = 1 := rfl
  have hZ : (['Z'] : List Char).length = 1 := rfl
  omega

/-- C1 counterexample: the formatter accepts "0001-01-01" (all-day shape,
adjustment off) yet renders the year without padding, returning the
5-character "10101" rather than an 8-digit value; and in a UTC+1 zone the
accepted timed input "9999-12-31T23:30:00" lands in UTC year 10000, whose
unpadded rendering makes the result 17 characters rather than 16. -/
theorem c1_shape_counterexample :
    (formatDateTimeForGoogle envJun2025 (.vstr "0001-01-01") false = some "10101" ∧
      matchesAllDayRegex "0001-01-01" = true ∧
      ¬(("10101" : String).length = 8)) ∧
    (formatDateTimeForGoogle { tzOffsetMin := -60, nowEpochSec := 1750000000 }
        (.vstr "9999-12-31T23:30:00") true = some "100000101T003000Z" ∧
      matchesAllDayRegex "9999-12-31T23:30:00" = false ∧
      ¬(("100000101T003000Z" : String).length = 16)) :=
  ⟨⟨by rfl, by rfl, by decide⟩, ⟨by rfl, by rfl, by decide⟩⟩

/-- C1 (amended): for every accepted input the formatter returns the
rendering of the effective (possibly year-adjusted) epoch, and the shape is
decided solely by the all-day regex on the original input string; the
all-day rendering is the 8-digit local YYYYMMDD and the timed rendering the
16-character UTC YYYYMMDDTHHmmssZ only under the additional condition that
the relevant year has exactly four digits (1000..9999), since the year is
rendered unpadded. -/
theorem c1_format_shape_amended (env : JsEnv) (s : String) (adj : Bool)
    (ep eff : Int) (hs : ¬(s = ""))
    (hp : jsParseDate env.tzOffsetMin s = some ep)
    (heff : eff = (if adj ∧ (localCivil env.tzOffsetMin ep).year < envCurrentYear env
        then jsSetFullYear env.tzOffsetMin ep (envCurrentYear env) else ep)) :
    formatDateTimeForGoogle env (.vstr s) adj =
        some (renderFormatted env.tzOffsetMin s eff) ∧
      (matchesAllDayRegex s = true →
        1000 ≤ (localCivil env.tzOffsetMin eff).year →
        (localCivil env.tzOffsetMin eff).year ≤ 9999 →
        (renderFormatted env.tzOffsetMin s eff).length = 8 ∧
          ∀ c ∈ (renderFormatted env.tzOffsetMin s eff).data, isDigitChar c = true) ∧
      (matchesAllDayRegex s = false →
        1000 ≤ (civilFromSeconds eff).year →
        (civilFromSeconds eff).year ≤ 9999 →
        (renderFormatted env.tzOffsetMin s eff).length = 16) := by
  subst heff
  refine ⟨?_, ?_, ?_⟩
  · have ht : jsTruthy (.vstr s) = true := by simp [jsTruthy, hs]
    have hjs : jsToString (.vstr s) = s := rfl
    simp only [formatDateTimeForGoogle, ht, Bool.not_true, Bool.false_eq_true, if_false,
      hjs, hp]
  · intro hall hy1 hy2
    exact renderFormatted_allDay env.tzOffsetMin s _ hall hy1 hy2
  · intro hall hy1 hy2
    exact renderFormatted_timed env.tzOffsetMin s _ hall hy1 hy2

/-- Concrete instance of the amended C1 theorem on an in-range all-day
input: the formatter returns the rendering of the parsed epoch and that
rendering has exactly 8 characters. -/
theorem c1_format_shape_amended_witness :
    formatDateTimeForGoogle envJun2025 (.vstr "2025-12-25") true =
        some (renderFormatted 0 "2025-12-25" (20447 * 86400)) ∧
      (renderFormatted 0 "2025-12-25" (20447 * 86400)).length = 8 := by
  have h := c1_format_shape_amended envJun2025 "2025-12-25" true
    (20447 * 86400) (20447 * 86400) (by decide) (by decide) (by decide)
  exact ⟨h.1, (h.2.1 (by decide) (by decide) (by decide)).1⟩

/-! ### Locating the JSON slice -/

theorem indexOfChar_not_mem_append (a b : List Char) (c : Char) (ha : c ∉ a)
    (i : Nat) (hb : indexOfChar b c = some i) :
    indexOfChar (a ++ b) c = some (a.length + i) := by
  induction a with
  | nil => simpa using hb
  | cons x rest ih =>
    simp only [List.mem_cons, not_or] at ha
    have hxc : ¬(x = c) := fun h => ha.1 h.symm
    have hr := ih ha.2
    simp only [List.cons_append, indexOfChar, List.append_eq, hxc, if_false, hr,
      List.length_cons]
    simp only [Option.some.injEq]
    omega

theorem lastIndexOfChar_none (l : List Char) (c : Char) (h : c ∉ l) :
    lastIndexOfChar l c = none := by
  induction l with
  | nil => rfl
  | cons x rest ih =>
    simp only [List.mem_cons, not_or] at h
    have hxc : ¬(x = c) := fun he => h.1 he.symm
    simp [lastIndexOfChar, ih h.2, hxc]

theorem lastIndexOfChar_append_none (a b : List Char) (c : Char)
    (ha : lastIndexOfChar a c = none) (hb : c ∉ b) :
    lastIndexOfChar (a ++ b) c = none := by
  induction a with
  | nil => simpa using lastIndexOfChar_none b c hb
  | cons x rest ih =>
    simp only [lastIndexOfChar] at ha
    cases hlr : lastIndexOfChar rest c with
    | some k =>
      rw [hlr] at ha
      dsimp only [] at ha
      exact absurd ha (by simp)
    | none =>
      rw [hlr] at ha
      dsimp only [] at ha
      have hxc : ¬(x = c) := by
        intro hxe
        rw [if_pos hxe] at ha
        exact Option.noConfusion ha
      simp only [List.cons_append, lastIndexOfChar, List.append_eq, ih hlr]
      rw [if_neg hxc]

theorem lastIndexOfChar_append (a b : List Char) (c : Char) (i : Nat)
    (ha : lastIndexOfChar a c = some i) (hb : c ∉ b) :
    lastIndexOfChar (a ++ b) c = some i := by
  induction a generalizing i with
  | nil => simp [lastIndexOfChar] at ha
  | cons x rest ih =>
    simp only [lastIndexOfChar] at ha
    cases hlr : lastIndexOfChar rest c with
    | some k =>
      rw [hlr] at ha
      dsimp only [] at ha
      simp only [Option.some.injEq] at ha
      simp only [List.cons_append, lastIndexOfChar, List.append_eq, ih k hlr]
      rw [ha]
    | none =>
      rw [hlr] at ha
      dsimp only [] at ha
      simp only [List.cons_append, lastIndexOfChar, List.append_eq,
        lastIndexOfChar_append_none rest b c hlr hb]
      exact ha

theorem lastIndexOfChar_snoc (xs : List Char) (c : Char) :
    lastIndexOfChar (xs ++ [c]) c = some xs.length := by
  induction xs with
  | nil => simp [lastIndexOfChar]
  | cons x rest ih => simp [lastIndexOfChar, ih]

theorem map_fixQuoteChar_id (l : List Char) (h : '\'' ∉ l) :
    l.map fixQuoteChar = l := by
  induction l with
  | nil => rfl
  | cons x rest ih =>
    simp only [List.mem_cons, not_or] at h
    have hx : ¬(x = '\'') := fun he => h.1 he.symm
    simp [fixQuoteChar, hx, ih h.2]

/-- C6 counterexample: the prefix is not arbitrary.  A prefix containing an
opening brace shifts the slice start before the embedded object, so the
well-formed object after "\x7b" is lost: the extractor returns null even
though the embedded text parses on its own. -/
theorem c6_extract_counterexample :
    extractAndParseJSONFromString ("\x7b" ++ "\x7b\"a\":null\x7d" ++ "") = none ∧
      jsonParseE ("\x7b\"a\":null\x7d".data) = .ok (.vobj [("a", .vnull)]) :=
  ⟨by rfl, by rfl⟩

/-- C6 (amended): the extractor recovers an embedded well-formed object
exactly when the surrounding text does not interfere with the slice or the
repairs: the prefix holds no opening brace, the suffix no closing brace,
and the object text holds no single quote and is a fixed point of the
trailing-comma repair.  Under those conditions the returned value is the
parse of the embedded text itself. -/
theorem c6_extract_embedded_amended (pre j suf : String)
    (fields : List (String × JsValue)) (t u : List Char)
    (hj : j.data = '{' :: t) (hl : j.data = u ++ ['}'])
    (hpre : '{' ∉ pre.data) (hsuf : '}' ∉ suf.data)
    (hq : '\'' ∉ j.data) (hfix : fixTrailingCommas j.data = j.data)
    (hparse : jsonParseE j.data = .ok (.vobj fields)) :
    extractAndParseJSONFromString (pre ++ j ++ suf) = some (.vobj fields) := by
  have hdata : (pre ++ j ++ suf).data = (pre.data ++ j.data) ++ suf.data := by
    rw [string_data_append, string_data_append]
  have hraw : ¬(pre ++ j ++ suf = "") := by
    intro h
    have hd : (pre.data ++ j.data) ++ suf.data = [] := by
      rw [← hdata, h]
    rw [hj] at hd
    simp at hd
  have hidx : indexOfChar ((pre.data ++ j.data) ++ suf.data) '{' =
      some pre.data.length := by
    rw [List.append_assoc]
    have hJ : indexOfChar (j.data ++ suf.data) '{' = some 0 := by
      rw [hj]
      simp [indexOfChar]
    simpa using indexOfChar_not_mem_append pre.data (j.data ++ suf.data) '{' hpre 0 hJ
  have hlen : j.data.length = u.length + 1 := by
    rw [hl]
    simp
  have hlast : lastIndexOfChar ((pre.data ++ j.data) ++ suf.data) '}' =
      some (pre.data.length + u.length) := by
    apply lastIndexOfChar_append
    · rw [hl, ← List.append_assoc]
      simpa using lastIndexOfChar_snoc (pre.data ++ u) '}'
    · exact hsuf
  have hdrop : (((pre.data ++ j.data) ++ suf.data).drop pre.data.length) =
      j.data ++ suf.data := by
    rw [List.append_assoc]
    exact List.drop_left _ _
  have htake : (j.data ++ suf.data).take (pre.data.length + u.length + 1 -
      pre.data.length) = j.data := by
    have harith : pre.data.length + u.length + 1 - pre.data.length = j.data.length := by
      omega
    rw [harith]
    exact List.take_left _ _
  have hbody : extractBody (pre ++ j ++ suf) = .ok (some (.vobj fields)) := by
    simp only [extractBody, hdata, hidx, hlast]
    rw [if_neg (by omega)]
    rw [hdrop, htake, map_fixQuoteChar_id j.data hq, hfix, hparse]
    rfl
  unfold extractAndParseJSONFromString
  rw [if_neg hraw, hbody]

/-- Concrete instance of the amended C6 theorem: an object embedded in
brace-free prose is extracted and parsed back exactly. -/
theorem c6_extract_embedded_amended_witness :
    extractAndParseJSONFromString ("Sure: " ++ "\x7b\"a\":null\x7d" ++ " done") =
      some (.vobj [("a", .vnull)]) :=
  c6_extract_embedded_amended "Sure: " "\x7b\"a\":null\x7d" " done"
    [("a", .vnull)] ("\"a\":null\x7d".data) ("\x7b\"a\":null".data)
    (by rfl) (by rfl) (by decide) (by decide) (by decide) (by rfl) (by rfl)
